import Mathlib

/-!
Shallow embedding of the route/waypoint reconciliation engine of the
`ubcuas/gcom` web frontend (Redux data slice, sync thunk, drone-queue
adapter), together with theorems settling the specification claims.

The repository snapshot contains two revisions of the data slice:
one whose state holds `currentRoute : Route | null` alongside
`availableRoutes` (every waypoint reducer updates both copies), and a
later one whose state holds only `currentRouteId : number | null` and
looks the route up in `availableRoutes`.  The `saveCurrentRouteToBackend`
thunk reads `state.data.currentRoute`, i.e. it works on the former shape.
Both revisions are embedded below, in namespaces `V2` (the
`currentRoute` object revision) and `V3` (the `currentRouteId` revision).

JavaScript-level conventions used throughout:
* numeric fields of waypoints are carried as `Int` (the programs only
  copy them, never compute with them);
* a JS array is a `List (Option Waypoint)`: `some w` is a waypoint,
  `none` is a hole / `undefined` entry (holes arise from out-of-range
  index assignment);
* `parseInt` is modelled by `jsParseInt`, returning `none` for NaN.
-/

namespace Gcom

/-- `Waypoint` from `types/Waypoint.ts`: identity is a string, position is
required, everything else optional. -/
structure Waypoint where
  id : String
  name : Option String
  latitude : Int
  longitude : Int
  alt : Option Int
  radius : Option Int
  remarks : Option String
  command : Option String
  param1 : Option Int
  param2 : Option Int
  param3 : Option Int
  param4 : Option Int
deriving DecidableEq

/-- A JS array slot: an actual waypoint or a hole (`undefined`). -/
abbrev Slot := Option Waypoint

/-- `Route` from `types/Route.ts`. -/
structure Route where
  id : Int
  name : String
  waypoints : List Slot
deriving DecidableEq

/-- The fields of a waypoint minus its `id` (the rest object produced by
`const { id: _id, ...waypointData } = waypoint`). -/
structure WaypointData where
  name : Option String
  latitude : Int
  longitude : Int
  alt : Option Int
  radius : Option Int
  remarks : Option String
  command : Option String
  param1 : Option Int
  param2 : Option Int
  param3 : Option Int
  param4 : Option Int
deriving DecidableEq

/-- Strip the identity off a waypoint. -/
def Waypoint.data (w : Waypoint) : WaypointData :=
  ⟨w.name, w.latitude, w.longitude, w.alt, w.radius, w.remarks, w.command,
   w.param1, w.param2, w.param3, w.param4⟩

/-! ## JS primitives -/

/-- Value of a list of decimal digit characters. -/
def decVal (cs : List Char) : Nat :=
  cs.foldl (fun a c => a * 10 + (c.toNat - 48)) 0

/-- Is `c` a hexadecimal digit? -/
def isHexDigit (c : Char) : Bool :=
  c.isDigit || (('a' ≤ c && c ≤ 'f') || ('A' ≤ c && c ≤ 'F'))

/-- Value of a hexadecimal digit character. -/
def hexDigitVal (c : Char) : Nat :=
  if c.isDigit then c.toNat - 48
  else if 'a' ≤ c && c ≤ 'f' then c.toNat - 87
  else c.toNat - 55

/-- Value of a list of hexadecimal digit characters. -/
def hexVal (cs : List Char) : Nat :=
  cs.foldl (fun a c => a * 16 + hexDigitVal c) 0

/-- Magnitude part of JS `parseInt` with no explicit radix: a `0x`/`0X`
string is hexadecimal, otherwise the longest decimal digit run is taken;
no digits at all yields NaN (`none`). -/
def jsParseIntMag (cs : List Char) : Option Nat :=
  match cs with
  | '0' :: 'x' :: rest =>
      let ds := rest.takeWhile isHexDigit
      if ds.isEmpty then none else some (hexVal ds)
  | '0' :: 'X' :: rest =>
      let ds := rest.takeWhile isHexDigit
      if ds.isEmpty then none else some (hexVal ds)
  | _ =>
      let ds := cs.takeWhile Char.isDigit
      if ds.isEmpty then none else some (decVal ds)

/-- JS `parseInt(s)` (radix auto-detected): leading whitespace skipped,
optional sign, then the longest numeric run; `none` models NaN. -/
def jsParseInt (s : String) : Option Int :=
  let cs := s.data.dropWhile Char.isWhitespace
  match cs with
  | '-' :: rest => (jsParseIntMag rest).map (fun n => -(n : Int))
  | '+' :: rest => (jsParseIntMag rest).map (fun n => (n : Int))
  | rest => (jsParseIntMag rest).map (fun n => (n : Int))

/-- The thunk's "waypoint is new" test (part_011, line 109):
`waypoint.id === "-1" || parseInt(waypoint.id) < 0`.  `NaN < 0` is false
in JS, so a non-numeric identity is never "new". -/
def isNewId (id : String) : Bool :=
  id == "-1" ||
    (match jsParseInt id with
     | some n => n < 0
     | none => false)

/-- The thunk's delete-candidate keep test (part_011, line 128):
`w.id !== "-1" && parseInt(w.id) >= 0`.  `NaN >= 0` is false, so a
non-numeric identity is never a delete candidate. -/
def isPersistedId (id : String) : Bool :=
  id != "-1" &&
    (match jsParseInt id with
     | some n => 0 ≤ n
     | none => false)

/-- JS `arr.findIndex(p)`, as an `Option Nat` instead of `-1`-for-missing. -/
def jsFindIndex (p : α → Bool) : List α → Option Nat
  | [] => none
  | a :: as => if p a then some 0 else (jsFindIndex p as).map (· + 1)

/-- Replace the first element satisfying `p` by its image under `f`
(the `const route = list.find(p); if (route) mutate(route)` pattern). -/
def modifyFirst (p : α → Bool) (f : α → α) : List α → List α
  | [] => []
  | a :: as => if p a then f a :: as else a :: modifyFirst p f as

/-- JS `arr[i] = v` on an array of length `l.length`: a negative index
creates a non-index property and leaves the array contents unchanged; an
index beyond the end extends the array, padding with holes. -/
def jsArraySet (l : List Slot) (i : Int) (v : Waypoint) : List Slot :=
  if i < 0 then l
  else
    let n := i.toNat
    if n < l.length then l.set n (some v)
    else l ++ List.replicate (n - l.length) none ++ [some v]

/-- JS `arr.splice(start, 1)`: a negative start counts from the end
(clamped at 0), a start at or beyond the length removes nothing. -/
def jsSpliceDelete1 (l : List α) (start : Int) : List α :=
  let len : Int := l.length
  let s : Nat := if start < 0 then (max (len + start) 0).toNat else (min start len).toNat
  l.take s ++ l.drop (s + 1)

/-! ## The `currentRoute`-object revision of the data slice (namespace `V2`)

This is the slice revision whose state carries a full `currentRoute`
object next to `availableRoutes` and whose waypoint reducers mutate both
copies; it is the revision the diff-and-sync thunk reads. -/

namespace V2

/-- Slice state (route-related part). -/
structure DataState where
  availableRoutes : List Route
  currentRoute : Option Route
deriving DecidableEq

/-- `setCurrentRoute` reducer: overwrite `currentRoute`, leave
`availableRoutes` alone. -/
def setCurrentRoute (s : DataState) (r : Route) : DataState :=
  { s with currentRoute := some r }

/-- `deleteWaypointFromCurrentRoute` reducer: splice the waypoint out of
`currentRoute.waypoints`, then find the route with the same id in
`availableRoutes` and splice its waypoint list as well. -/
def deleteWaypointFromCurrentRoute (s : DataState) (i : Int) : DataState :=
  match s.currentRoute with
  | none => s
  | some cr =>
      { availableRoutes :=
          modifyFirst (fun r => r.id == cr.id)
            (fun r => { r with waypoints := jsSpliceDelete1 r.waypoints i })
            s.availableRoutes,
        currentRoute := some { cr with waypoints := jsSpliceDelete1 cr.waypoints i } }

end V2

/-! ## The `currentRouteId` revision of the data slice (namespace `V3`)

This is the slice revision whose state carries only a nullable
`currentRouteId` and resolves the current route by lookup in
`availableRoutes`. -/

namespace V3

/-- Slice state (route-related part). -/
structure DataState where
  availableRoutes : List Route
  currentRouteId : Option Int
deriving DecidableEq

/-- The slice's initial state: no routes, nothing selected. -/
def initialState : DataState := ⟨[], none⟩

/-- `loadAvailableRoutes` reducer: replace `availableRoutes` wholesale;
`currentRouteId` is not touched. -/
def loadAvailableRoutes (s : DataState) (routes : List Route) : DataState :=
  { s with availableRoutes := routes }

/-- `setCurrentRoute` reducer: upsert the payload into `availableRoutes`
(replace the first entry with the same id, else push) and make it
current. -/
def setCurrentRoute (s : DataState) (r : Route) : DataState :=
  { availableRoutes :=
      match jsFindIndex (fun x => x.id == r.id) s.availableRoutes with
      | some j => s.availableRoutes.set j r
      | none => s.availableRoutes ++ [r],
    currentRouteId := some r.id }

/-- `addRoute` reducer: push. -/
def addRoute (s : DataState) (r : Route) : DataState :=
  { s with availableRoutes := s.availableRoutes ++ [r] }

/-- `removeRoute` reducer: filter the id out; clear `currentRouteId`
in the same transition when it referenced the removed id. -/
def removeRoute (s : DataState) (id : Int) : DataState :=
  { availableRoutes := s.availableRoutes.filter (fun r => r.id != id),
    currentRouteId := if s.currentRouteId == some id then none else s.currentRouteId }

/-- The `if (state.currentRouteId !== null) { const route = find(...);
if (route) mutate(route) }` pattern shared by the current-route
reducers. -/
def onCurrent (s : DataState) (f : Route → Route) : DataState :=
  match s.currentRouteId with
  | none => s
  | some rid =>
      { s with availableRoutes := modifyFirst (fun r => r.id == rid) f s.availableRoutes }

/-- `updateCurrentRouteName` reducer. -/
def updateCurrentRouteName (s : DataState) (name : String) : DataState :=
  onCurrent s (fun r => { r with name := name })

/-- `updateCurrentRouteWaypoints` reducer. -/
def updateCurrentRouteWaypoints (s : DataState) (ws : List Slot) : DataState :=
  onCurrent s (fun r => { r with waypoints := ws })

/-- `addWaypointToCurrentRoute` reducer. -/
def addWaypointToCurrentRoute (s : DataState) (w : Waypoint) : DataState :=
  onCurrent s (fun r => { r with waypoints := r.waypoints ++ [some w] })

/-- `editWaypointInCurrentRoute` reducer: bare JS index assignment
`route.waypoints[index] = waypoint`. -/
def editWaypointInCurrentRoute (s : DataState) (i : Int) (w : Waypoint) : DataState :=
  onCurrent s (fun r => { r with waypoints := jsArraySet r.waypoints i w })

/-- `deleteWaypointFromCurrentRoute` reducer: bare JS
`route.waypoints.splice(index, 1)`. -/
def deleteWaypointFromCurrentRoute (s : DataState) (i : Int) : DataState :=
  onCurrent s (fun r => { r with waypoints := jsSpliceDelete1 r.waypoints i })

/-- `selectCurrentRoute` selector:
`availableRoutes.find((r) => r.id === currentRouteId) ?? null`
(`r.id === null` is false in JS, so `none` never matches). -/
def selectCurrentRoute (s : DataState) : Option Route :=
  s.availableRoutes.find? (fun r => some r.id == s.currentRouteId)

/-- `selectCurrentRouteWaypoints` selector:
`find(...)?.waypoints ?? []`. -/
def selectCurrentRouteWaypoints (s : DataState) : List Slot :=
  ((selectCurrentRoute s).map Route.waypoints).getD []

/-- The store operations named by the spec's working-set claims, as one
action type. -/
inductive Action where
  | loadAvailableRoutes (routes : List Route)
  | setCurrentRoute (r : Route)
  | addRoute (r : Route)
  | removeRoute (id : Int)
  | updateCurrentRouteName (name : String)
  | updateCurrentRouteWaypoints (ws : List Slot)
  | addWaypointToCurrentRoute (w : Waypoint)
  | editWaypointInCurrentRoute (i : Int) (w : Waypoint)
  | deleteWaypointFromCurrentRoute (i : Int)
deriving DecidableEq

/-- Dispatch one action. -/
def step (s : DataState) : Action → DataState
  | .loadAvailableRoutes routes => loadAvailableRoutes s routes
  | .setCurrentRoute r => setCurrentRoute s r
  | .addRoute r => addRoute s r
  | .removeRoute id => removeRoute s id
  | .updateCurrentRouteName n => updateCurrentRouteName s n
  | .updateCurrentRouteWaypoints ws => updateCurrentRouteWaypoints s ws
  | .addWaypointToCurrentRoute w => addWaypointToCurrentRoute s w
  | .editWaypointInCurrentRoute i w => editWaypointInCurrentRoute s i w
  | .deleteWaypointFromCurrentRoute i => deleteWaypointFromCurrentRoute s i

/-- Dispatch a sequence of actions. -/
def run (s : DataState) (as : List Action) : DataState :=
  as.foldl step s

/-- The current-route reference is valid: a null reference, or one that
some entry of `availableRoutes` matches. -/
def currentRouteValid (s : DataState) : Bool :=
  match s.currentRouteId with
  | none => true
  | some rid => s.availableRoutes.any (fun r => r.id == rid)

end V3

/-! ## The diff-and-sync thunk (`saveCurrentRouteToBackend`, part_011)

The thunk is embedded as a pure function from a server oracle and a
`V2.DataState` to an outcome record: the ordered list of remote calls it
issued, the `setCurrentRoute` dispatches it performed, and its result.
A remote call the oracle marks as failing aborts the remaining steps
(the thunk's single `try`/`catch` turns the failure into a rejection).
The sync loop reads the local array by index, so a hole (`undefined`)
there makes `waypoint.id` raise a `TypeError`, which the same `catch`
turns into a rejection; JS `Array.prototype.filter`, by contrast, skips
holes, so a hole in the snapshot list is simply never a delete
candidate. -/

/-- One remote call of the storage API, with the data it carries. -/
inductive ApiCall where
  | updateRouteName (routeId : Int) (name : String)
  | addWaypointToRoute (routeId : Int) (data : WaypointData) (order : Nat)
  | updateWaypoint (id : String) (data : WaypointData) (order : Nat) (route : Int)
  | deleteWaypoint (id : String)
  | reorderWaypoints (routeId : Int) (ids : List String)
  | getRouteById (routeId : Int)
deriving DecidableEq

/-- How the save can fail. -/
inductive SaveError where
  | noCurrentRoute
  | routeNotFound
  | callFailed (c : ApiCall)
  | typeError
deriving DecidableEq

/-- Oracle for the remote store: which calls succeed, and the parsed
responses of the calls whose response the thunk uses. -/
structure Server where
  ok : ApiCall → Bool
  createResp : Int → WaypointData → Nat → Waypoint
  updateResp : String → WaypointData → Nat → Int → Waypoint
  fetchResp : Int → Route

/-- Outcome of one thunk invocation: remote calls in issue order (a
failed call is included as the last element), the routes dispatched via
`setCurrentRoute`, and the settled result. -/
structure SaveOutcome where
  calls : List ApiCall
  dispatched : List Route
  result : Except SaveError Route

/-- The per-waypoint sync loop (part_011, lines 103-123): in local order,
create the waypoint when its identity is "new", else update it with the
intended order; responses are collected into `updatedWaypoints`. -/
def syncLoop (srv : Server) (routeId : Int) :
    List Slot → Nat → List ApiCall → List Waypoint →
    Except (List ApiCall × SaveError) (List ApiCall × List Waypoint)
  | [], _, acc, saved => .ok (acc, saved)
  | none :: _, _, acc, _ => .error (acc, .typeError)
  | some wp :: rest, i, acc, saved =>
      if isNewId wp.id then
        let c := ApiCall.addWaypointToRoute routeId wp.data i
        if srv.ok c then
          syncLoop srv routeId rest (i + 1) (acc ++ [c])
            (saved ++ [srv.createResp routeId wp.data i])
        else .error (acc ++ [c], .callFailed c)
      else
        let c := ApiCall.updateWaypoint wp.id wp.data i routeId
        if srv.ok c then
          syncLoop srv routeId rest (i + 1) (acc ++ [c])
            (saved ++ [srv.updateResp wp.id wp.data i routeId])
        else .error (acc ++ [c], .callFailed c)

/-- The deleted-waypoint filter (part_011, lines 126-129): keep the
snapshot waypoints whose identity is non-sentinel, parses to a
non-negative number, and is absent from the local identity set; a hole
in the snapshot is skipped, exactly as JS `filter` skips missing
elements of a sparse array. -/
def deleteCandidates (currentIds : List String) : List Slot → List Waypoint
  | [] => []
  | none :: rest => deleteCandidates currentIds rest
  | some w :: rest =>
      if isPersistedId w.id && !(currentIds.contains w.id) then
        w :: deleteCandidates currentIds rest
      else deleteCandidates currentIds rest

/-- Issue the delete calls (part_011, lines 131-133). -/
def issueDeletes (srv : Server) (acc : List ApiCall) :
    List Waypoint → Except (List ApiCall × SaveError) (List ApiCall)
  | [] => .ok acc
  | w :: rest =>
      let c := ApiCall.deleteWaypoint w.id
      if srv.ok c then issueDeletes srv (acc ++ [c]) rest
      else .error (acc ++ [c], .callFailed c)

/-- Tail of the save after the sync loop succeeded: compute and issue the
deletes, then the single reorder call, then the re-fetch whose result is
dispatched via `setCurrentRoute`. -/
def saveTail (srv : Server) (routeId : Int) (snapshot : List Slot)
    (currentIds : List String) (acc1 : List ApiCall)
    (updatedWaypoints : List Waypoint) : SaveOutcome :=
  match issueDeletes srv acc1 (deleteCandidates currentIds snapshot) with
  | .error (calls, e) => ⟨calls, [], .error e⟩
  | .ok acc2 =>
          let rc := ApiCall.reorderWaypoints routeId (updatedWaypoints.map Waypoint.id)
          if srv.ok rc then
            let gc := ApiCall.getRouteById routeId
            if srv.ok gc then
              let updatedRoute := srv.fetchResp routeId
              ⟨acc2 ++ [rc, gc], [updatedRoute], .ok updatedRoute⟩
            else ⟨acc2 ++ [rc, gc], [], .error (.callFailed gc)⟩
          else ⟨acc2 ++ [rc], [], .error (.callFailed rc)⟩

/-- `saveCurrentRouteToBackend` (part_011, lines 79-150). -/
def saveCurrentRouteToBackend (srv : Server) (st : V2.DataState) : SaveOutcome :=
  match st.currentRoute with
  | none => ⟨[], [], .error .noCurrentRoute⟩
  | some currentRoute =>
      let routeId := currentRoute.id
      match st.availableRoutes.find? (fun r => r.id == routeId) with
      | none => ⟨[], [], .error .routeNotFound⟩
      | some existingRoute =>
          let renameCalls : List ApiCall :=
            if currentRoute.name != existingRoute.name then
              [ApiCall.updateRouteName routeId currentRoute.name]
            else []
          if renameCalls.all srv.ok then
            match syncLoop srv routeId currentRoute.waypoints 0 renameCalls [] with
            | .error (calls, e) => ⟨calls, [], .error e⟩
            | .ok (acc1, updatedWaypoints) =>
                saveTail srv routeId existingRoute.waypoints
                  (currentRoute.waypoints.filterMap (fun sl => sl.map Waypoint.id))
                  acc1 updatedWaypoints
          else
            ⟨renameCalls, [],
             .error (.callFailed (ApiCall.updateRouteName routeId currentRoute.name))⟩

/-- Apply a save outcome's dispatches to the store (the thunk only ever
dispatches `setCurrentRoute`). -/
def applySave (st : V2.DataState) (o : SaveOutcome) : V2.DataState :=
  o.dispatched.foldl V2.setCurrentRoute st

/-- The local waypoint identity list at save start. -/
def localIds (st : V2.DataState) : List String :=
  match st.currentRoute with
  | none => []
  | some cr => cr.waypoints.filterMap (fun sl => sl.map Waypoint.id)

/-- Is a call a delete-waypoint call? -/
def ApiCall.isDelete : ApiCall → Bool
  | .deleteWaypoint _ => true
  | _ => false

/-- Is a call a create-waypoint call? -/
def ApiCall.isCreate : ApiCall → Bool
  | .addWaypointToRoute _ _ _ => true
  | _ => false

/-- Is a call a reorder call? -/
def ApiCall.isReorder : ApiCall → Bool
  | .reorderWaypoints _ _ => true
  | _ => false

/-! ## The drone-queue adapter (`postToDrone`)

`postWaypointsToDrone` (endpoints.ts, lines 21-24) serializes the list
and performs one POST to `/drone/queue`; `handlePost`
(WaypointStatusCard.tsx, lines 30-40) returns immediately when the
queue is empty, otherwise awaits the post, turning a failure into a
snackbar notification. -/

/-- One outbound call to the flight-control gateway, carrying the
waypoint list it was given. -/
structure DronePost where
  payload : List Waypoint
deriving DecidableEq

/-- `postWaypointsToDrone`: one POST carrying the serialized list. -/
def postWaypointsToDrone (ws : List Waypoint) : List DronePost :=
  [⟨ws⟩]

/-- `handlePost`, returning the outbound calls issued and the snackbar
message signalled, given the queue and whether the post fails (with
which message). -/
def handlePost (postErr : Option String) (waypointQueue : List Waypoint) :
    List DronePost × Option String :=
  if waypointQueue.length == 0 then ([], none)
  else (postWaypointsToDrone waypointQueue, postErr)

/-- The remote call the sync loop issues for one waypoint at order `i`. -/
def mkSyncCall (routeId : Int) (w : Waypoint) (i : Nat) : ApiCall :=
  if isNewId w.id then ApiCall.addWaypointToRoute routeId w.data i
  else ApiCall.updateWaypoint w.id w.data i routeId

/-- The response the sync loop records for one waypoint at order `i`. -/
def mkSyncResp (srv : Server) (routeId : Int) (w : Waypoint) (i : Nat) : Waypoint :=
  if isNewId w.id then srv.createResp routeId w.data i
  else srv.updateResp w.id w.data i routeId

/-- The calls a fully successful sync loop issues for a hole-free
waypoint list, starting at order `i`. -/
def syncCalls (routeId : Int) (i : Nat) : List Waypoint → List ApiCall
  | [] => []
  | w :: ws => mkSyncCall routeId w i :: syncCalls routeId (i + 1) ws

/-- The responses a fully successful sync loop records for a hole-free
waypoint list, starting at order `i`. -/
def syncResps (srv : Server) (routeId : Int) (i : Nat) : List Waypoint → List Waypoint
  | [] => []
  | w :: ws => mkSyncResp srv routeId w i :: syncResps srv routeId (i + 1) ws

/-- Is an action a `loadAvailableRoutes` dispatch? -/
def V3.Action.isLoad : V3.Action → Bool
  | .loadAvailableRoutes _ => true
  | _ => false

/-! ## Concrete fixtures for counterexamples and witnesses -/

/-- A waypoint with the given identity and zeroed position. -/
def wpA (id : String) : Waypoint :=
  ⟨id, none, 0, 0, none, none, none, none, none, none, none, none⟩

/-- Rebuild a waypoint from posted fields plus a server-chosen identity. -/
def respWaypoint (id : String) (d : WaypointData) : Waypoint :=
  ⟨id, d.name, d.latitude, d.longitude, d.alt, d.radius, d.remarks, d.command,
   d.param1, d.param2, d.param3, d.param4⟩

/-- A server oracle on which every call succeeds: creates get identity
`created`, updates echo the identity they were addressed to, and
re-fetches return `fetch`. -/
def srvFix (created : String) (fetch : Int → Route) : Server :=
  ⟨fun _ => true, fun _ d _ => respWaypoint created d,
   fun id d _ _ => respWaypoint id d, fetch⟩

/-- Route 1 with persisted waypoints 7 and 8. -/
def routeC1 : Route := ⟨1, "r", [some (wpA "7"), some (wpA "8")]⟩

/-- Working set holding `routeC1` both as the current route and in
`availableRoutes` (the state produced by fetching and selecting it). -/
def stC1 : V2.DataState := ⟨[routeC1], some routeC1⟩

/-- Oracle for the delete-then-save run. -/
def srvC1 : Server := srvFix "9" (fun rid => ⟨rid, "r", [some (wpA "8")]⟩)

/-- The delete-then-save run of claim C1: remove index 0, then save. -/
def outC1 : SaveOutcome :=
  saveCurrentRouteToBackend srvC1 (V2.deleteWaypointFromCurrentRoute stC1 0)

/-- Route 1 with two waypoints, for the out-of-bounds claims. -/
def routeC2 : Route := ⟨1, "r", [some (wpA "a"), some (wpA "b")]⟩

/-- V3 state with `routeC2` selected. -/
def stC2 : V3.DataState := ⟨[routeC2], some 1⟩

/-- An empty route with id 1. -/
def routeC3 : Route := ⟨1, "r", []⟩

/-- Route 1 holding one persisted and one unpersisted waypoint. -/
def routeC4 : Route := ⟨1, "r", [some (wpA "7"), some (wpA "-1")]⟩

/-- V2 state with `routeC4` current; the `availableRoutes` entry carries
a different name, so a save issues a rename. -/
def stC4 : V2.DataState := ⟨[⟨1, "old", [some (wpA "7"), some (wpA "-1")]⟩], some routeC4⟩

/-- Oracle for the C4/C5 witness runs. -/
def srvC4 : Server := srvFix "9" (fun rid => ⟨rid, "r", [some (wpA "7"), some (wpA "9")]⟩)

/-- Route 1 with a single persisted waypoint. -/
def routeC9 : Route := ⟨1, "r", [some (wpA "7")]⟩

/-- In-sync working set for the idempotence claim. -/
def stC9 : V2.DataState := ⟨[routeC9], some routeC9⟩

/-- Oracle whose re-fetch returns exactly the synced waypoint. -/
def srvC9 : Server := srvFix "9" (fun rid => ⟨rid, "r", [some (wpA "7")]⟩)

/-- A server oracle on which every call fails. -/
def srvFail : Server :=
  ⟨fun _ => false, fun _ d _ => respWaypoint "9" d,
   fun id d _ _ => respWaypoint id d, fun rid => ⟨rid, "r", []⟩⟩

/-- Working set whose snapshot entry still holds waypoint 7 while the
current route no longer does: a save must delete 7 remotely. -/
def stC10 : V2.DataState :=
  ⟨[⟨1, "r", [some (wpA "7"), some (wpA "8")]⟩], some ⟨1, "r", [some (wpA "8")]⟩⟩

/-! ## Helper lemmas -/

theorem isNewId_iff (s : String) :
    isNewId s = true ↔ (s = "-1" ∨ ∃ n, jsParseInt s = some n ∧ n < 0) := by
  unfold isNewId
  rcases h : jsParseInt s with _ | n <;>
    simp [h, Bool.or_eq_true, beq_iff_eq, decide_eq_true_eq]

theorem isPersistedId_iff (s : String) :
    isPersistedId s = true ↔ (s ≠ "-1" ∧ ∃ n, jsParseInt s = some n ∧ 0 ≤ n) := by
  unfold isPersistedId
  rcases h : jsParseInt s with _ | n <;>
    simp [h, Bool.and_eq_true, bne_iff_ne, decide_eq_true_eq]

theorem isPersistedId_not_new (s : String) (h : isPersistedId s = true) :
    isNewId s = false := by
  rcases (isPersistedId_iff s).mp h with ⟨hne, n, hp, hn⟩
  rcases hb : isNewId s with _ | _
  · rfl
  · rcases (isNewId_iff s).mp hb with h1 | ⟨m, hm, hmneg⟩
    · exact absurd h1 hne
    · rw [hp] at hm
      injection hm with hnm
      subst hnm
      exact absurd hn (not_le.mpr hmneg)

theorem filterMap_map_some (wl : List Waypoint) :
    (wl.map some).filterMap (fun sl : Slot => sl.map Waypoint.id) = wl.map Waypoint.id := by
  induction wl with
  | nil => rfl
  | cons w ws ih => simp [List.filterMap_cons, ih]

theorem jsFindIndex_eq_none (p : α → Bool) (l : List α) (h : jsFindIndex p l = none) :
    ∀ a ∈ l, p a = false := by
  induction l with
  | nil => intro a ha; cases ha
  | cons x xs ih =>
      intro a ha
      unfold jsFindIndex at h
      by_cases hx : p x = true
      · simp [hx] at h
      · rw [Bool.not_eq_true] at hx
        rcases hfi : jsFindIndex p xs with _ | j
        · cases ha with
          | head => exact hx
          | tail _ hmem => exact ih hfi a hmem
        · simp [hx, hfi] at h

theorem find?_modifyFirst (p : α → Bool) (f : α → α) (hp : ∀ a, p (f a) = p a)
    (l : List α) : (modifyFirst p f l).find? p = (l.find? p).map f := by
  induction l with
  | nil => rfl
  | cons x xs ih =>
      unfold modifyFirst
      by_cases hx : p x = true
      · simp [hx, List.find?_cons_of_pos, hp x]
      · rw [Bool.not_eq_true] at hx
        simp only [hx, Bool.false_eq_true, if_false]
        rw [List.find?_cons_of_neg _ (by simp [hx]),
            List.find?_cons_of_neg _ (by simp [hx])]
        exact ih

theorem beq_some_some (a b : Int) : (some a == some b) = (a == b) := rfl

theorem selectCurrentRoute_eq_currentRouteId (s : V3.DataState) (r : Route)
    (h : V3.selectCurrentRoute s = some r) : s.currentRouteId = some r.id := by
  have hp := List.find?_some h
  rcases hc : s.currentRouteId with _ | rid
  · rw [hc] at hp; simp at hp
  · rw [hc] at hp
    rw [beq_some_some, beq_iff_eq] at hp
    rw [hp]

theorem selectCurrentRoute_none_of_id_none (s : V3.DataState)
    (h : s.currentRouteId = none) : V3.selectCurrentRoute s = none := by
  unfold V3.selectCurrentRoute
  refine List.find?_eq_none.mpr ?_
  intro a _
  rw [h]
  simp

theorem selectCurrentRoute_onCurrent (s : V3.DataState) (f : Route → Route)
    (hf : ∀ r, (f r).id = r.id) :
    V3.selectCurrentRoute (V3.onCurrent s f) = (V3.selectCurrentRoute s).map f := by
  rcases hc : s.currentRouteId with _ | rid
  · unfold V3.onCurrent
    rw [hc, selectCurrentRoute_none_of_id_none s hc]
    rfl
  · unfold V3.onCurrent
    rw [hc]
    unfold V3.selectCurrentRoute
    simp only [hc]
    have hpred : (fun r : Route => some r.id == some rid) = (fun r : Route => r.id == rid) := by
      funext r
      rfl
    rw [hpred]
    exact find?_modifyFirst (fun r : Route => r.id == rid) f (fun a => by simp [hf a]) _

theorem find?_upsert (l : List Route) (r : Route) :
    (match jsFindIndex (fun x : Route => x.id == r.id) l with
      | some j => l.set j r
      | none => l ++ [r]).find? (fun x : Route => x.id == r.id) = some r := by
  induction l with
  | nil =>
      simp only [jsFindIndex, List.nil_append]
      rw [List.find?_cons_of_pos _ (by simp)]
  | cons a as ih =>
      by_cases ha : (a.id == r.id) = true
      · simp only [jsFindIndex, ha, if_true, List.set_cons_zero]
        rw [List.find?_cons_of_pos _ (by simp)]
      · rw [Bool.not_eq_true] at ha
        simp only [jsFindIndex, ha, Bool.false_eq_true, if_false]
        rcases hfi : jsFindIndex (fun x : Route => x.id == r.id) as with _ | j
        · rw [hfi] at ih
          simp only [Option.map_none', List.cons_append]
          rw [List.find?_cons_of_neg _ (by simp [ha])]
          exact ih
        · rw [hfi] at ih
          simp only [Option.map_some', List.set_cons_succ]
          rw [List.find?_cons_of_neg _ (by simp [ha])]
          exact ih

theorem selectCurrentRoute_setCurrentRoute (s : V3.DataState) (r : Route) :
    V3.selectCurrentRoute (V3.setCurrentRoute s r) = some r := by
  unfold V3.selectCurrentRoute V3.setCurrentRoute
  simp only
  have hpred : (fun x : Route => some x.id == some r.id) = (fun x : Route => x.id == r.id) := by
    funext x
    rfl
  rw [hpred]
  exact find?_upsert s.availableRoutes r

theorem syncCalls_length (routeId : Int) (wl : List Waypoint) :
    ∀ i, (syncCalls routeId i wl).length = wl.length := by
  induction wl with
  | nil => intro i; rfl
  | cons w ws ih => intro i; simp [syncCalls, ih]

theorem syncResps_length (srv : Server) (routeId : Int) (wl : List Waypoint) :
    ∀ i, (syncResps srv routeId i wl).length = wl.length := by
  induction wl with
  | nil => intro i; rfl
  | cons w ws ih => intro i; simp [syncResps, ih]

theorem syncCalls_getElem? (routeId : Int) (wl : List Waypoint) :
    ∀ i j, (syncCalls routeId i wl)[j]? = (wl[j]?).map (fun w => mkSyncCall routeId w (i + j)) := by
  induction wl with
  | nil => intro i j; simp [syncCalls]
  | cons w ws ih =>
      intro i j
      cases j with
      | zero => simp [syncCalls]
      | succ k =>
          simp only [syncCalls, List.getElem?_cons_succ, ih (i + 1) k]
          have : i + 1 + k = i + (k + 1) := by omega
          rw [this]

theorem syncResps_getElem? (srv : Server) (routeId : Int) (wl : List Waypoint) :
    ∀ i j, (syncResps srv routeId i wl)[j]? =
      (wl[j]?).map (fun w => mkSyncResp srv routeId w (i + j)) := by
  induction wl with
  | nil => intro i j; simp [syncResps]
  | cons w ws ih =>
      intro i j
      cases j with
      | zero => simp [syncResps]
      | succ k =>
          simp only [syncResps, List.getElem?_cons_succ, ih (i + 1) k]
          have h2 : i + 1 + k = i + (k + 1) := by omega
          rw [h2]

theorem syncCalls_mem (routeId : Int) (wl : List Waypoint) :
    ∀ i c, c ∈ syncCalls routeId i wl → ∃ w o, w ∈ wl ∧ c = mkSyncCall routeId w o := by
  induction wl with
  | nil => intro i c hc; cases hc
  | cons w ws ih =>
      intro i c hc
      rcases List.mem_cons.mp hc with h1 | h2
      · exact ⟨w, i, List.mem_cons_self w ws, h1⟩
      · rcases ih (i + 1) c h2 with ⟨w2, o, hw2, hcw⟩
        exact ⟨w2, o, List.mem_cons_of_mem w hw2, hcw⟩

theorem mem_syncResps_id (srv : Server) (routeId : Int)
    (hupd : ∀ id d o rt, (srv.updateResp id d o rt).id = id)
    (wl : List Waypoint) :
    ∀ i w, w ∈ wl → isNewId w.id = false →
      w.id ∈ (syncResps srv routeId i wl).map Waypoint.id := by
  induction wl with
  | nil => intro i w hw; cases hw
  | cons x xs ih =>
      intro i w hw hnew
      rcases List.mem_cons.mp hw with h1 | h2
      · subst h1
        simp only [syncResps, mkSyncResp, hnew, Bool.false_eq_true, if_false, List.map_cons]
        rw [hupd]
        exact List.mem_cons_self _ _
      · simp only [syncResps, List.map_cons]
        exact List.mem_cons_of_mem _ (ih (i + 1) w h2 hnew)

theorem syncLoop_ok_spec (srv : Server) (routeId : Int) (ws : List Slot) :
    ∀ i acc saved out,
      syncLoop srv routeId ws i acc saved = .ok out →
      ∃ wl, ws = wl.map some ∧
        out.1 = acc ++ syncCalls routeId i wl ∧
        out.2 = saved ++ syncResps srv routeId i wl := by
  induction ws with
  | nil =>
      intro i acc saved out h
      refine ⟨[], rfl, ?_, ?_⟩ <;> simp [syncLoop] at h <;> simp [syncCalls, syncResps, ← h]
  | cons sl rest ih =>
      intro i acc saved out h
      cases sl with
      | none => simp [syncLoop] at h
      | some wp =>
          by_cases hn : isNewId wp.id = true
          · rw [syncLoop, if_pos hn] at h
            simp only at h
            by_cases hok :
                srv.ok (ApiCall.addWaypointToRoute routeId wp.data i) = true
            · rw [if_pos hok] at h
              rcases ih (i + 1) (acc ++ [ApiCall.addWaypointToRoute routeId wp.data i])
                  (saved ++ [srv.createResp routeId wp.data i]) out h with ⟨wl, hws, h1, h2⟩
              refine ⟨wp :: wl, by rw [hws]; rfl, ?_, ?_⟩
              · rw [h1, syncCalls, mkSyncCall, if_pos hn]
                simp
              · rw [h2, syncResps, mkSyncResp, if_pos hn]
                simp
            · rw [Bool.not_eq_true] at hok
              rw [hok] at h
              simp at h
          · rw [Bool.not_eq_true] at hn
            rw [syncLoop, hn] at h
            simp only [Bool.false_eq_true, if_false] at h
            by_cases hok : srv.ok (ApiCall.updateWaypoint wp.id wp.data i routeId) = true
            · rw [if_pos hok] at h
              rcases ih (i + 1) (acc ++ [ApiCall.updateWaypoint wp.id wp.data i routeId])
                  (saved ++ [srv.updateResp wp.id wp.data i routeId]) out h with ⟨wl, hws, h1, h2⟩
              refine ⟨wp :: wl, by rw [hws]; rfl, ?_, ?_⟩
              · rw [h1, syncCalls, mkSyncCall, hn]
                simp
              · rw [h2, syncResps, mkSyncResp, hn]
                simp
            · rw [Bool.not_eq_true] at hok
              rw [hok] at h
              simp at h

theorem syncLoop_error_spec (srv : Server) (routeId : Int) (ws : List Slot) :
    ∀ i acc saved calls e,
      syncLoop srv routeId ws i acc saved = .error (calls, e) →
      ∃ cs, calls = acc ++ cs ∧
        ∀ c ∈ cs, ∃ w o, some w ∈ ws ∧ c = mkSyncCall routeId w o := by
  induction ws with
  | nil => intro i acc saved calls e h; simp [syncLoop] at h
  | cons sl rest ih =>
      intro i acc saved calls e h
      cases sl with
      | none =>
          simp only [syncLoop] at h
          refine ⟨[], ?_, by intro c hc; cases hc⟩
          injection h with h1
          injection h1 with h2 h3
          rw [← h2]
          simp
      | some wp =>
          by_cases hn : isNewId wp.id = true
          · rw [syncLoop, if_pos hn] at h
            simp only at h
            by_cases hok :
                srv.ok (ApiCall.addWaypointToRoute routeId wp.data i) = true
            · rw [if_pos hok] at h
              rcases ih (i + 1) _ _ calls e h with ⟨cs, h1, h2⟩
              refine ⟨ApiCall.addWaypointToRoute routeId wp.data i :: cs, by
                rw [h1]; simp, ?_⟩
              intro c hc
              rcases List.mem_cons.mp hc with hc1 | hc2
              · exact ⟨wp, i, List.mem_cons_self _ _, by rw [hc1, mkSyncCall, if_pos hn]⟩
              · rcases h2 c hc2 with ⟨w, o, hw, hcw⟩
                exact ⟨w, o, List.mem_cons_of_mem _ hw, hcw⟩
            · rw [Bool.not_eq_true] at hok
              rw [hok] at h
              simp only [Bool.false_eq_true, if_false, Except.error.injEq, Prod.mk.injEq] at h
              refine ⟨[ApiCall.addWaypointToRoute routeId wp.data i], by rw [← h.1], ?_⟩
              intro c hc
              rcases List.mem_singleton.mp hc with hc1
              exact ⟨wp, i, List.mem_cons_self _ _, by rw [hc1, mkSyncCall, if_pos hn]⟩
          · rw [Bool.not_eq_true] at hn
            rw [syncLoop, hn] at h
            simp only [Bool.false_eq_true, if_false] at h
            by_cases hok : srv.ok (ApiCall.updateWaypoint wp.id wp.data i routeId) = true
            · rw [if_pos hok] at h
              rcases ih (i + 1) _ _ calls e h with ⟨cs, h1, h2⟩
              refine ⟨ApiCall.updateWaypoint wp.id wp.data i routeId :: cs, by
                rw [h1]; simp, ?_⟩
              intro c hc
              rcases List.mem_cons.mp hc with hc1 | hc2
              · exact ⟨wp, i, List.mem_cons_self _ _, by rw [hc1, mkSyncCall, hn]; simp⟩
              · rcases h2 c hc2 with ⟨w, o, hw, hcw⟩
                exact ⟨w, o, List.mem_cons_of_mem _ hw, hcw⟩
            · rw [Bool.not_eq_true] at hok
              rw [hok] at h
              simp only [Bool.false_eq_true, if_false, Except.error.injEq, Prod.mk.injEq] at h
              refine ⟨[ApiCall.updateWaypoint wp.id wp.data i routeId], by rw [← h.1], ?_⟩
              intro c hc
              rcases List.mem_singleton.mp hc with hc1
              exact ⟨wp, i, List.mem_cons_self _ _, by rw [hc1, mkSyncCall, hn]; simp⟩

theorem deleteCandidates_eq (currentIds : List String) (snap : List Slot) :
    deleteCandidates currentIds snap =
      (snap.filterMap (fun sl => sl)).filter
        (fun w => isPersistedId w.id && !(currentIds.contains w.id)) := by
  induction snap with
  | nil => rfl
  | cons sl rest ih =>
      cases sl with
      | none => simp [deleteCandidates, List.filterMap_cons, ih]
      | some w =>
          rw [deleteCandidates, ih]
          simp only [List.filterMap_cons, List.filter_cons]

theorem mem_deleteCandidates (currentIds : List String) (snap : List Slot)
    (w : Waypoint) (hw : w ∈ deleteCandidates currentIds snap) :
    some w ∈ snap ∧ isPersistedId w.id = true ∧
      currentIds.contains w.id = false := by
  rw [deleteCandidates_eq] at hw
  have hmem := List.mem_of_mem_filter hw
  have hpred := List.of_mem_filter hw
  rw [Bool.and_eq_true, Bool.not_eq_true'] at hpred
  refine ⟨?_, hpred.1, hpred.2⟩
  rcases List.mem_filterMap.mp hmem with ⟨sl, hsl, hid2⟩
  have hsw : sl = some w := hid2
  rw [← hsw]
  exact hsl

theorem issueDeletes_ok_spec (srv : Server) (dels : List Waypoint) :
    ∀ acc out, issueDeletes srv acc dels = .ok out →
      out = acc ++ dels.map (fun w => ApiCall.deleteWaypoint w.id) := by
  induction dels with
  | nil =>
      intro acc out h
      simp only [issueDeletes, Except.ok.injEq] at h
      rw [← h]
      simp
  | cons w ws ih =>
      intro acc out h
      rw [issueDeletes] at h
      by_cases hok : srv.ok (ApiCall.deleteWaypoint w.id) = true
      · rw [if_pos hok] at h
        rw [ih _ out h]
        simp
      · rw [Bool.not_eq_true] at hok
        rw [hok] at h
        simp at h

theorem issueDeletes_error_spec (srv : Server) (dels : List Waypoint) :
    ∀ acc calls e, issueDeletes srv acc dels = .error (calls, e) →
      ∃ cs, calls = acc ++ cs ∧ ∀ c ∈ cs, ∃ w, w ∈ dels ∧ c = ApiCall.deleteWaypoint w.id := by
  induction dels with
  | nil => intro acc calls e h; simp [issueDeletes] at h
  | cons w ws ih =>
      intro acc calls e h
      rw [issueDeletes] at h
      by_cases hok : srv.ok (ApiCall.deleteWaypoint w.id) = true
      · rw [if_pos hok] at h
        rcases ih _ calls e h with ⟨cs, h1, h2⟩
        refine ⟨ApiCall.deleteWaypoint w.id :: cs, by rw [h1]; simp, ?_⟩
        intro c hc
        rcases List.mem_cons.mp hc with hc1 | hc2
        · exact ⟨w, List.mem_cons_self _ _, hc1⟩
        · rcases h2 c hc2 with ⟨w2, hw2, hcw⟩
          exact ⟨w2, List.mem_cons_of_mem _ hw2, hcw⟩
      · rw [Bool.not_eq_true] at hok
        rw [hok] at h
        simp only [Bool.false_eq_true, if_false, Except.error.injEq, Prod.mk.injEq] at h
        refine ⟨[ApiCall.deleteWaypoint w.id], by rw [← h.1], ?_⟩
        intro c hc
        rcases List.mem_singleton.mp hc with hc1
        exact ⟨w, List.mem_cons_self _ _, hc1⟩

theorem saveTail_ok_spec (srv : Server) (routeId : Int) (snapshot : List Slot)
    (currentIds : List String) (acc1 : List ApiCall) (upd : List Waypoint) (u : Route)
    (h : (saveTail srv routeId snapshot currentIds acc1 upd).result = .ok u) :
    u = srv.fetchResp routeId ∧
    (saveTail srv routeId snapshot currentIds acc1 upd).dispatched = [u] ∧
    (saveTail srv routeId snapshot currentIds acc1 upd).calls =
      acc1 ++
      ((snapshot.filterMap (fun sl => sl)).filter
          (fun w => isPersistedId w.id && !(currentIds.contains w.id))).map
        (fun w => ApiCall.deleteWaypoint w.id) ++
      [ApiCall.reorderWaypoints routeId (upd.map Waypoint.id),
       ApiCall.getRouteById routeId] := by
  unfold saveTail at h ⊢
  rcases hid : issueDeletes srv acc1 (deleteCandidates currentIds snapshot) with
    ⟨calls, e⟩ | acc2
  · simp [hid] at h
  · simp only [hid] at h ⊢
    by_cases hrc :
        srv.ok (ApiCall.reorderWaypoints routeId (upd.map Waypoint.id)) = true
    · simp only [hrc, if_true] at h ⊢
      by_cases hgc : srv.ok (ApiCall.getRouteById routeId) = true
      · simp only [hgc, if_true] at h ⊢
        injection h with h1
        refine ⟨h1.symm, by rw [h1], ?_⟩
        rw [issueDeletes_ok_spec srv _ acc1 acc2 hid, deleteCandidates_eq]
      · rw [Bool.not_eq_true] at hgc
        simp [hgc] at h
    · rw [Bool.not_eq_true] at hrc
      simp [hrc] at h

theorem saveTail_calls_tail (srv : Server) (routeId : Int) (snapshot : List Slot)
    (currentIds : List String) (acc1 : List ApiCall) (upd : List Waypoint) :
    ∃ cs, (saveTail srv routeId snapshot currentIds acc1 upd).calls = acc1 ++ cs ∧
      ∀ c ∈ cs, c.isCreate = false ∧
        (c.isDelete = true → ∃ w : Waypoint, c = ApiCall.deleteWaypoint w.id ∧
          some w ∈ snapshot ∧ isPersistedId w.id = true ∧
          currentIds.contains w.id = false) := by
  unfold saveTail
  have hdel_mem := mem_deleteCandidates currentIds snapshot
  rcases hid : issueDeletes srv acc1 (deleteCandidates currentIds snapshot) with
    ⟨calls, e⟩ | acc2
  · simp only [hid]
    rcases issueDeletes_error_spec srv _ acc1 calls e hid with ⟨cs, h1, h2⟩
    refine ⟨cs, by simp [h1], ?_⟩
    intro c hc
    rcases h2 c hc with ⟨w, hw, hcw⟩
    rcases hdel_mem w hw with ⟨hm1, hm2, hm3⟩
    exact ⟨by rw [hcw]; rfl, fun _ => ⟨w, hcw, hm1, hm2, hm3⟩⟩
  · simp only [hid]
    have hacc2 := issueDeletes_ok_spec srv _ acc1 acc2 hid
    have htail : ∀ tailCalls : List ApiCall,
        (∀ c ∈ tailCalls, c.isCreate = false ∧ c.isDelete = false) →
        ∀ cs, cs = (deleteCandidates currentIds snapshot).map
            (fun w => ApiCall.deleteWaypoint w.id) ++ tailCalls →
        acc2 ++ tailCalls = acc1 ++ cs ∧
        ∀ c ∈ cs, c.isCreate = false ∧
          (c.isDelete = true → ∃ w : Waypoint, c = ApiCall.deleteWaypoint w.id ∧
            some w ∈ snapshot ∧ isPersistedId w.id = true ∧
            currentIds.contains w.id = false) := by
      intro tailCalls htc cs hcs
      constructor
      · rw [hacc2, hcs]
        simp
      · intro c hc
        rw [hcs] at hc
        rcases List.mem_append.mp hc with hc1 | hc2
        · rcases List.mem_map.mp hc1 with ⟨w, hw, hcw⟩
          rcases hdel_mem w hw with ⟨hm1, hm2, hm3⟩
          exact ⟨by rw [← hcw]; rfl, fun _ => ⟨w, hcw.symm, hm1, hm2, hm3⟩⟩
        · rcases htc c hc2 with ⟨ht1, ht2⟩
          exact ⟨ht1, by intro hdel; rw [hdel] at ht2; cases ht2⟩
    by_cases hrc :
        srv.ok (ApiCall.reorderWaypoints routeId (upd.map Waypoint.id)) = true
    · simp only [hrc, if_true]
      by_cases hgc : srv.ok (ApiCall.getRouteById routeId) = true
      · simp only [hgc, if_true]
        refine ⟨_, (htail [ApiCall.reorderWaypoints routeId (upd.map Waypoint.id),
          ApiCall.getRouteById routeId] ?_ _ rfl).1,
          (htail _ ?_ _ rfl).2⟩ <;>
        · intro c hc
          rcases List.mem_cons.mp hc with hc1 | hc2
          · subst hc1; exact ⟨rfl, rfl⟩
          · rcases List.mem_singleton.mp hc2 with hc3
            subst hc3; exact ⟨rfl, rfl⟩
      · rw [Bool.not_eq_true] at hgc
        simp only [hgc, Bool.false_eq_true, if_false]
        refine ⟨_, (htail [ApiCall.reorderWaypoints routeId (upd.map Waypoint.id),
          ApiCall.getRouteById routeId] ?_ _ rfl).1,
          (htail _ ?_ _ rfl).2⟩ <;>
        · intro c hc
          rcases List.mem_cons.mp hc with hc1 | hc2
          · subst hc1; exact ⟨rfl, rfl⟩
          · rcases List.mem_singleton.mp hc2 with hc3
            subst hc3; exact ⟨rfl, rfl⟩
    · rw [Bool.not_eq_true] at hrc
      simp only [hrc, Bool.false_eq_true, if_false]
      refine ⟨_, (htail [ApiCall.reorderWaypoints routeId (upd.map Waypoint.id)] ?_ _ rfl).1,
        (htail _ ?_ _ rfl).2⟩ <;>
      · intro c hc
        rcases List.mem_singleton.mp hc with hc1
        subst hc1; exact ⟨rfl, rfl⟩

theorem saveTail_dispatched_spec (srv : Server) (routeId : Int) (snapshot : List Slot)
    (currentIds : List String) (acc1 : List ApiCall) (upd : List Waypoint) :
    (saveTail srv routeId snapshot currentIds acc1 upd).dispatched = [] ∨
    ∃ u, (saveTail srv routeId snapshot currentIds acc1 upd).result = .ok u ∧
      (saveTail srv routeId snapshot currentIds acc1 upd).dispatched = [u] := by
  unfold saveTail
  rcases hid : issueDeletes srv acc1 (deleteCandidates currentIds snapshot) with
    ⟨calls, e⟩ | acc2
  · simp only [hid]
    exact Or.inl trivial
  · simp only [hid]
    by_cases hrc :
        srv.ok (ApiCall.reorderWaypoints routeId (upd.map Waypoint.id)) = true
    · simp only [hrc, if_true]
      by_cases hgc : srv.ok (ApiCall.getRouteById routeId) = true
      · simp only [hgc, if_true]
        exact Or.inr ⟨srv.fetchResp routeId, rfl, rfl⟩
      · rw [Bool.not_eq_true] at hgc
        simp only [hgc, Bool.false_eq_true, if_false]
        exact Or.inl trivial
    · rw [Bool.not_eq_true] at hrc
      simp only [hrc, Bool.false_eq_true, if_false]
      exact Or.inl trivial

theorem mkSyncCall_isDelete (routeId : Int) (w : Waypoint) (i : Nat) :
    (mkSyncCall routeId w i).isDelete = false := by
  unfold mkSyncCall
  by_cases hn : isNewId w.id = true
  · rw [if_pos hn]; rfl
  · rw [Bool.not_eq_true] at hn
    rw [hn]; rfl

theorem mkSyncCall_isCreate (routeId : Int) (w : Waypoint) (i : Nat) :
    (mkSyncCall routeId w i).isCreate = isNewId w.id := by
  unfold mkSyncCall
  by_cases hn : isNewId w.id = true
  · rw [if_pos hn, hn]; rfl
  · rw [Bool.not_eq_true] at hn
    rw [hn]; rfl

theorem save_ok_spec (srv : Server) (st : V2.DataState) (u : Route)
    (h : (saveCurrentRouteToBackend srv st).result = .ok u) :
    ∃ cr er wl,
      st.currentRoute = some cr ∧
      st.availableRoutes.find? (fun r => r.id == cr.id) = some er ∧
      cr.waypoints = List.map some wl ∧
      u = srv.fetchResp cr.id ∧
      (saveCurrentRouteToBackend srv st).dispatched = [u] ∧
      (saveCurrentRouteToBackend srv st).calls =
        (if cr.name != er.name then [ApiCall.updateRouteName cr.id cr.name] else [])
        ++ syncCalls cr.id 0 wl
        ++ ((er.waypoints.filterMap (fun sl => sl)).filter
              (fun w => isPersistedId w.id &&
                !((wl.map Waypoint.id).contains w.id))).map
            (fun w => ApiCall.deleteWaypoint w.id)
        ++ [ApiCall.reorderWaypoints cr.id ((syncResps srv cr.id 0 wl).map Waypoint.id),
            ApiCall.getRouteById cr.id] := by
  obtain ⟨o, ho⟩ : ∃ o, saveCurrentRouteToBackend srv st = o := ⟨_, rfl⟩
  rw [ho] at h ⊢
  unfold saveCurrentRouteToBackend at ho
  rcases hc : st.currentRoute with _ | cr
  · simp only [hc] at ho
    subst ho
    simp at h
  · simp only [hc] at ho
    rcases hf : st.availableRoutes.find? (fun r => r.id == cr.id) with _ | er
    · simp only [hf] at ho
      subst ho
      simp at h
    · simp only [hf] at ho
      by_cases hall :
          (if cr.name != er.name then [ApiCall.updateRouteName cr.id cr.name]
            else []).all srv.ok = true
      · rw [if_pos hall] at ho
        rcases hsl : syncLoop srv cr.id cr.waypoints 0
            (if cr.name != er.name then [ApiCall.updateRouteName cr.id cr.name] else [])
            [] with ⟨calls, e⟩ | ⟨acc1, upd⟩
        · simp only [hsl] at ho
          subst ho
          simp at h
        · simp only [hsl] at ho
          subst ho
          rcases syncLoop_ok_spec srv cr.id cr.waypoints 0 _ [] _ hsl with ⟨wl, hwl, hacc1, hupd⟩
          have hacc1a : acc1 = (if cr.name != er.name
              then [ApiCall.updateRouteName cr.id cr.name] else []) ++ syncCalls cr.id 0 wl := hacc1
          have hupda : upd = syncResps srv cr.id 0 wl := by simpa using hupd
          rcases saveTail_ok_spec srv cr.id er.waypoints
              (cr.waypoints.filterMap (fun sl => sl.map Waypoint.id)) acc1 upd u h with
            ⟨hu, hdisp, hcalls⟩
          refine ⟨cr, er, wl, rfl, hf, hwl, hu, hdisp, ?_⟩
          rw [hcalls, hacc1a, hupda, hwl, filterMap_map_some]
      · rw [Bool.not_eq_true] at hall
        simp only [hall, Bool.false_eq_true, if_false] at ho
        subst ho
        simp at h

theorem save_dispatched_spec (srv : Server) (st : V2.DataState) :
    (saveCurrentRouteToBackend srv st).dispatched = [] ∨
    ∃ u, (saveCurrentRouteToBackend srv st).result = .ok u ∧
      (saveCurrentRouteToBackend srv st).dispatched = [u] := by
  obtain ⟨o, ho⟩ : ∃ o, saveCurrentRouteToBackend srv st = o := ⟨_, rfl⟩
  rw [ho]
  unfold saveCurrentRouteToBackend at ho
  rcases hc : st.currentRoute with _ | cr
  · simp only [hc] at ho
    subst ho
    exact Or.inl rfl
  · simp only [hc] at ho
    rcases hf : st.availableRoutes.find? (fun r => r.id == cr.id) with _ | er
    · simp only [hf] at ho
      subst ho
      exact Or.inl rfl
    · simp only [hf] at ho
      by_cases hall :
          (if cr.name != er.name then [ApiCall.updateRouteName cr.id cr.name]
            else []).all srv.ok = true
      · rw [if_pos hall] at ho
        rcases hsl : syncLoop srv cr.id cr.waypoints 0
            (if cr.name != er.name then [ApiCall.updateRouteName cr.id cr.name] else [])
            [] with ⟨calls, e⟩ | ⟨acc1, upd⟩
        · simp only [hsl] at ho
          subst ho
          exact Or.inl rfl
        · simp only [hsl] at ho
          subst ho
          exact saveTail_dispatched_spec srv cr.id er.waypoints
            (cr.waypoints.filterMap (fun sl => sl.map Waypoint.id)) acc1 upd
      · rw [Bool.not_eq_true] at hall
        simp only [hall, Bool.false_eq_true, if_false] at ho
        subst ho
        exact Or.inl rfl

theorem save_delete_mem (srv : Server) (st : V2.DataState) (wid : String)
    (h : ApiCall.deleteWaypoint wid ∈ (saveCurrentRouteToBackend srv st).calls) :
    ∃ cr er w, st.currentRoute = some cr ∧
      st.availableRoutes.find? (fun r => r.id == cr.id) = some er ∧
      wid = w.id ∧ some w ∈ er.waypoints ∧ isPersistedId w.id = true ∧
      (localIds st).contains w.id = false := by
  obtain ⟨o, ho⟩ : ∃ o, saveCurrentRouteToBackend srv st = o := ⟨_, rfl⟩
  rw [ho] at h
  unfold saveCurrentRouteToBackend at ho
  rcases hc : st.currentRoute with _ | cr
  · simp only [hc] at ho
    subst ho
    simp at h
  · simp only [hc] at ho
    rcases hf : st.availableRoutes.find? (fun r => r.id == cr.id) with _ | er
    · simp only [hf] at ho
      subst ho
      simp at h
    · simp only [hf] at ho
      have hrens : ∀ c ∈ (if cr.name != er.name
          then [ApiCall.updateRouteName cr.id cr.name] else []), c.isDelete = false := by
        by_cases hn : (cr.name != er.name) = true
        · rw [if_pos hn]
          intro c hcc
          rcases List.mem_singleton.mp hcc with h1
          rw [h1]; rfl
        · rw [Bool.not_eq_true] at hn
          rw [hn]
          simp only [Bool.false_eq_true, if_false]
          intro c hcc
          cases hcc
      by_cases hall :
          (if cr.name != er.name then [ApiCall.updateRouteName cr.id cr.name]
            else []).all srv.ok = true
      · rw [if_pos hall] at ho
        rcases hsl : syncLoop srv cr.id cr.waypoints 0
            (if cr.name != er.name then [ApiCall.updateRouteName cr.id cr.name] else [])
            [] with ⟨calls, e⟩ | ⟨acc1, upd⟩
        · simp only [hsl] at ho
          subst ho
          simp only at h
          rcases syncLoop_error_spec srv cr.id cr.waypoints 0 _ [] calls e hsl with ⟨cs, h1, h2⟩
          rw [h1] at h
          rcases List.mem_append.mp h with hm1 | hm2
          · have hbad := hrens _ hm1
            cases hbad
          · rcases h2 _ hm2 with ⟨w, od, _, hcw⟩
            have hoops : (ApiCall.deleteWaypoint wid).isDelete = false := by
              rw [hcw]
              exact mkSyncCall_isDelete cr.id w od
            cases hoops
        · simp only [hsl] at ho
          subst ho
          rcases syncLoop_ok_spec srv cr.id cr.waypoints 0 _ [] _ hsl with ⟨wl, hwl, hacc1, _⟩
          have hacc1a : acc1 = (if cr.name != er.name
              then [ApiCall.updateRouteName cr.id cr.name] else []) ++ syncCalls cr.id 0 wl := hacc1
          rcases saveTail_calls_tail srv cr.id er.waypoints
              (cr.waypoints.filterMap (fun sl => sl.map Waypoint.id)) acc1 upd with
            ⟨cs, h1, h2⟩
          rw [h1, hacc1a] at h
          rcases List.mem_append.mp h with hm1 | hm2
          · rcases List.mem_append.mp hm1 with hm3 | hm4
            · have hbad := hrens _ hm3
              cases hbad
            · rcases syncCalls_mem cr.id wl 0 _ hm4 with ⟨w, od, _, hcw⟩
              have hoops : (ApiCall.deleteWaypoint wid).isDelete = false := by
                rw [hcw]
                exact mkSyncCall_isDelete cr.id w od
              cases hoops
          · rcases h2 _ hm2 with ⟨_, hdel⟩
            rcases hdel rfl with ⟨w, hcw, hmem, hpers, hcont⟩
            refine ⟨cr, er, w, rfl, hf, ?_, hmem, hpers, ?_⟩
            · injection hcw with h3
            · unfold localIds
              rw [hc]
              exact hcont
      · rw [Bool.not_eq_true] at hall
        simp only [hall, Bool.false_eq_true, if_false] at ho
        subst ho
        simp only at h
        have hbad := hrens _ h
        cases hbad

theorem save_create_mem (srv : Server) (st : V2.DataState) (rid : Int)
    (d : WaypointData) (od : Nat)
    (h : ApiCall.addWaypointToRoute rid d od ∈ (saveCurrentRouteToBackend srv st).calls) :
    ∃ cr w, st.currentRoute = some cr ∧ some w ∈ cr.waypoints ∧ isNewId w.id = true := by
  obtain ⟨o, ho⟩ : ∃ o, saveCurrentRouteToBackend srv st = o := ⟨_, rfl⟩
  rw [ho] at h
  unfold saveCurrentRouteToBackend at ho
  rcases hc : st.currentRoute with _ | cr
  · simp only [hc] at ho
    subst ho
    simp at h
  · simp only [hc] at ho
    rcases hf : st.availableRoutes.find? (fun r => r.id == cr.id) with _ | er
    · simp only [hf] at ho
      subst ho
      simp at h
    · simp only [hf] at ho
      have hrens : ∀ c ∈ (if cr.name != er.name
          then [ApiCall.updateRouteName cr.id cr.name] else []), c.isCreate = false := by
        by_cases hn : (cr.name != er.name) = true
        · rw [if_pos hn]
          intro c hcc
          rcases List.mem_singleton.mp hcc with h1
          rw [h1]; rfl
        · rw [Bool.not_eq_true] at hn
          rw [hn]
          simp only [Bool.false_eq_true, if_false]
          intro c hcc
          cases hcc
      have hsync : ∀ cs : List ApiCall, (∀ c ∈ cs, ∃ w o2, some w ∈ cr.waypoints ∧
          c = mkSyncCall cr.id w o2) →
          ApiCall.addWaypointToRoute rid d od ∈ cs →
          ∃ w, some w ∈ cr.waypoints ∧ isNewId w.id = true := by
        intro cs hcs hmem
        rcases hcs _ hmem with ⟨w, o2, hw, hcw⟩
        refine ⟨w, hw, ?_⟩
        have hcrw : (ApiCall.addWaypointToRoute rid d od).isCreate = isNewId w.id := by
          rw [hcw]
          exact mkSyncCall_isCreate cr.id w o2
        rw [← hcrw]
        rfl
      by_cases hall :
          (if cr.name != er.name then [ApiCall.updateRouteName cr.id cr.name]
            else []).all srv.ok = true
      · rw [if_pos hall] at ho
        rcases hsl : syncLoop srv cr.id cr.waypoints 0
            (if cr.name != er.name then [ApiCall.updateRouteName cr.id cr.name] else [])
            [] with ⟨calls, e⟩ | ⟨acc1, upd⟩
        · simp only [hsl] at ho
          subst ho
          simp only at h
          rcases syncLoop_error_spec srv cr.id cr.waypoints 0 _ [] calls e hsl with ⟨cs, h1, h2⟩
          rw [h1] at h
          rcases List.mem_append.mp h with hm1 | hm2
          · have hbad := hrens _ hm1
            cases hbad
          · rcases hsync cs (by
              intro c hcc
              rcases h2 c hcc with ⟨w, o2, hw, hcw⟩
              exact ⟨w, o2, hw, hcw⟩) hm2 with ⟨w, hw, hnew⟩
            exact ⟨cr, w, rfl, hw, hnew⟩
        · simp only [hsl] at ho
          subst ho
          rcases syncLoop_ok_spec srv cr.id cr.waypoints 0 _ [] _ hsl with ⟨wl, hwl, hacc1, _⟩
          have hacc1a : acc1 = (if cr.name != er.name
              then [ApiCall.updateRouteName cr.id cr.name] else []) ++ syncCalls cr.id 0 wl := hacc1
          rcases saveTail_calls_tail srv cr.id er.waypoints
              (cr.waypoints.filterMap (fun sl => sl.map Waypoint.id)) acc1 upd with
            ⟨cs, h1, h2⟩
          rw [h1, hacc1a] at h
          rcases List.mem_append.mp h with hm1 | hm2
          · rcases List.mem_append.mp hm1 with hm3 | hm4
            · have hbad := hrens _ hm3
              cases hbad
            · rcases hsync (syncCalls cr.id 0 wl) (by
                intro c hcc
                rcases syncCalls_mem cr.id wl 0 c hcc with ⟨w, o2, hw, hcw⟩
                refine ⟨w, o2, ?_, hcw⟩
                rw [hwl]
                exact List.mem_map_of_mem some hw) hm4 with ⟨w, hw, hnew⟩
              exact ⟨cr, w, rfl, hw, hnew⟩
          · rcases h2 _ hm2 with ⟨hncr, _⟩
            cases hncr
      · rw [Bool.not_eq_true] at hall
        simp only [hall, Bool.false_eq_true, if_false] at ho
        subst ho
        simp only at h
        have hbad := hrens _ h
        cases hbad

theorem jsSpliceDelete1_ge (l : List α) (i : Int) (hi : (l.length : Int) ≤ i) :
    jsSpliceDelete1 l i = l := by
  have h0 : ¬ i < 0 := by omega
  simp only [jsSpliceDelete1]
  rw [if_neg h0, min_eq_right hi]
  rw [Int.toNat_natCast, List.take_length]
  rw [List.drop_eq_nil_of_le (by omega)]
  simp

theorem jsSpliceDelete1_neg_length (l : List α) (i : Int) (hi : i < 0) :
    (jsSpliceDelete1 l i).length = l.length - 1 := by
  simp only [jsSpliceDelete1, List.length_append, List.length_take, List.length_drop]
  rw [if_pos hi]
  omega

theorem jsArraySet_neg (l : List Slot) (i : Int) (v : Waypoint) (hi : i < 0) :
    jsArraySet l i v = l := by
  simp only [jsArraySet]
  rw [if_pos hi]

theorem jsArraySet_ge (l : List Slot) (i : Int) (v : Waypoint)
    (hi : (l.length : Int) ≤ i) :
    jsArraySet l i v = l ++ List.replicate (i.toNat - l.length) none ++ [some v] := by
  have h0 : ¬ i < 0 := by omega
  have hn : ¬ i.toNat < l.length := by omega
  simp only [jsArraySet]
  rw [if_neg h0, if_neg hn]

theorem mkSyncCall_isReorder (routeId : Int) (w : Waypoint) (i : Nat) :
    (mkSyncCall routeId w i).isReorder = false := by
  unfold mkSyncCall
  by_cases hn : isNewId w.id = true
  · rw [if_pos hn]; rfl
  · rw [Bool.not_eq_true] at hn
    rw [hn]; rfl

theorem jsFindIndex_none_of (p : α → Bool) (l : List α) (h : ∀ a ∈ l, p a = false) :
    jsFindIndex p l = none := by
  induction l with
  | nil => rfl
  | cons x xs ih =>
      unfold jsFindIndex
      rw [h x (List.mem_cons_self x xs), ih (fun a ha => h a (List.mem_cons_of_mem x ha))]
      rfl

theorem any_modifyFirst (p q : α → Bool) (f : α → α) (hq : ∀ a, q (f a) = q a)
    (l : List α) : (modifyFirst p f l).any q = l.any q := by
  induction l with
  | nil => rfl
  | cons x xs ih =>
      unfold modifyFirst
      by_cases hx : p x = true
      · simp [hx, List.any_cons, hq x]
      · rw [Bool.not_eq_true] at hx
        simp [hx, List.any_cons, ih]

theorem currentRouteValid_onCurrent (s : V3.DataState) (f : Route → Route)
    (hf : ∀ r, (f r).id = r.id) :
    V3.currentRouteValid (V3.onCurrent s f) = V3.currentRouteValid s := by
  rcases hc : s.currentRouteId with _ | rid
  · simp only [V3.onCurrent, V3.currentRouteValid, hc]
  · simp only [V3.onCurrent, V3.currentRouteValid, hc]
    exact any_modifyFirst (fun r => r.id == rid) (fun r => r.id == rid) f
      (fun a => by simp [hf a]) s.availableRoutes

theorem currentRouteValid_step (s : V3.DataState) (a : V3.Action)
    (ha : a.isLoad = false) (h : V3.currentRouteValid s = true) :
    V3.currentRouteValid (V3.step s a) = true := by
  cases a with
  | loadAvailableRoutes routes => cases ha
  | setCurrentRoute r =>
      simp only [V3.step, V3.setCurrentRoute, V3.currentRouteValid]
      have hfind := find?_upsert s.availableRoutes r
      refine List.any_eq_true.mpr ⟨r, List.mem_of_find?_eq_some hfind, by simp⟩
  | addRoute r =>
      rcases hc : s.currentRouteId with _ | rid
      · simp only [V3.step, V3.addRoute, V3.currentRouteValid, hc]
      · simp only [V3.currentRouteValid, hc] at h
        simp only [V3.step, V3.addRoute, V3.currentRouteValid, hc, List.any_append, h,
          Bool.true_or]
  | removeRoute rid =>
      by_cases heq : (s.currentRouteId == some rid) = true
      · simp only [V3.step, V3.removeRoute, V3.currentRouteValid, if_pos heq]
      · rw [Bool.not_eq_true] at heq
        rcases hc : s.currentRouteId with _ | cid
        · rw [hc] at heq
          simp only [V3.step, V3.removeRoute, V3.currentRouteValid, hc, heq,
            Bool.false_eq_true, if_false]
        · rw [hc] at heq
          simp only [V3.currentRouteValid, hc] at h
          simp only [V3.step, V3.removeRoute, V3.currentRouteValid, hc, heq,
            Bool.false_eq_true, if_false]
          rcases List.any_eq_true.mp h with ⟨x, hx, hpx⟩
          have hxid : x.id = cid := by simpa using hpx
          have hne : cid ≠ rid := by
            intro hcon
            rw [hcon] at heq
            simp at heq
          refine List.any_eq_true.mpr ⟨x, List.mem_filter.mpr ⟨hx, ?_⟩, hpx⟩
          simp [bne_iff_ne, hxid, hne]
  | updateCurrentRouteName n =>
      simp only [V3.step, V3.updateCurrentRouteName]
      rw [currentRouteValid_onCurrent s (fun r => { r with name := n }) (fun r => rfl)]
      exact h
  | updateCurrentRouteWaypoints ws =>
      simp only [V3.step, V3.updateCurrentRouteWaypoints]
      rw [currentRouteValid_onCurrent s (fun r => { r with waypoints := ws }) (fun r => rfl)]
      exact h
  | addWaypointToCurrentRoute w =>
      simp only [V3.step, V3.addWaypointToCurrentRoute]
      rw [currentRouteValid_onCurrent s
        (fun r => { r with waypoints := r.waypoints ++ [some w] }) (fun r => rfl)]
      exact h
  | editWaypointInCurrentRoute i w =>
      simp only [V3.step, V3.editWaypointInCurrentRoute]
      rw [currentRouteValid_onCurrent s
        (fun r => { r with waypoints := jsArraySet r.waypoints i w }) (fun r => rfl)]
      exact h
  | deleteWaypointFromCurrentRoute i =>
      simp only [V3.step, V3.deleteWaypointFromCurrentRoute]
      rw [currentRouteValid_onCurrent s
        (fun r => { r with waypoints := jsSpliceDelete1 r.waypoints i }) (fun r => rfl)]
      exact h

theorem currentRouteValid_run (as : List V3.Action) :
    ∀ s : V3.DataState, (∀ a ∈ as, a.isLoad = false) →
      V3.currentRouteValid s = true → V3.currentRouteValid (V3.run s as) = true := by
  induction as with
  | nil => intro s _ h; exact h
  | cons a rest ih =>
      intro s hload h
      unfold V3.run
      rw [List.foldl_cons]
      exact ih (V3.step s a)
        (fun b hb => hload b (List.mem_cons_of_mem a hb))
        (currentRouteValid_step s a (hload a (List.mem_cons_self a rest)) h)

/-- Selector after a current-route mutation: if route `r` is selected,
the mutated working set selects `f r` and reads its waypoints. -/
theorem selectWaypoints_onCurrent (s : V3.DataState) (f : Route → Route) (r : Route)
    (hf : ∀ r2, (f r2).id = r2.id) (hr : V3.selectCurrentRoute s = some r) :
    V3.selectCurrentRouteWaypoints (V3.onCurrent s f) = (f r).waypoints := by
  unfold V3.selectCurrentRouteWaypoints
  rw [selectCurrentRoute_onCurrent s f hf, hr]
  rfl

/-! ## Claim theorems -/

/-- C1 (code bug): with a persisted two-waypoint route held in sync by the
working set, deleting the waypoint at index 0 via
`deleteWaypointFromCurrentRoute` and then running
`saveCurrentRouteToBackend` issues ZERO delete-waypoint calls (the claim
and the spec require exactly one, for identity "7"): the reducer also
splices the `availableRoutes` entry that the save uses as the pre-sync
remote snapshot, so the set difference is empty.  The reorder call does
carry the remaining identity list `["8"]`, and the save succeeds. -/
theorem C1_delete_then_save_issues_no_delete_call :
    outC1.calls.countP ApiCall.isDelete = 0 ∧
    ApiCall.deleteWaypoint "7" ∉ outC1.calls ∧
    outC1.calls.countP ApiCall.isReorder = 1 ∧
    ApiCall.reorderWaypoints 1 ["8"] ∈ outC1.calls ∧
    outC1.dispatched = [⟨1, "r", [some (wpA "8")]⟩] := by
  decide

/-- C2 counterexample: with a selected current route of length 2, the
index −1 lies outside `[0, 2)`, yet `deleteWaypointFromCurrentRoute (−1)`
changes the waypoint list (JS `splice` counts a negative start from the
end and removes the last element). -/
theorem C2_counterexample :
    V3.selectCurrentRoute stC2 = some routeC2 ∧
    routeC2.waypoints.length = 2 ∧
    V3.selectCurrentRouteWaypoints (V3.deleteWaypointFromCurrentRoute stC2 (-1)) ≠
      routeC2.waypoints := by
  decide

/-- C2 (amended): with a selected current route of length `L`, dispatching
`deleteWaypointFromCurrentRoute i` with `i ≥ L` leaves the waypoint list
unchanged (and nothing throws); but `editWaypointInCurrentRoute i wp` with
`i ≥ L` extends the list to length `i + 1`, padding with holes, and with
`i < 0` the delete removes an element (the list length drops by one)
while the edit leaves the array contents unchanged. -/
theorem C2_out_of_bounds_edit_delete (s : V3.DataState) (r : Route)
    (hr : V3.selectCurrentRoute s = some r) (i : Int) (w : Waypoint) :
    ((r.waypoints.length : Int) ≤ i →
      V3.selectCurrentRouteWaypoints (V3.deleteWaypointFromCurrentRoute s i) = r.waypoints ∧
      V3.selectCurrentRouteWaypoints (V3.editWaypointInCurrentRoute s i w) =
        r.waypoints ++ List.replicate (i.toNat - r.waypoints.length) none ++ [some w]) ∧
    (i < 0 →
      (V3.selectCurrentRouteWaypoints (V3.deleteWaypointFromCurrentRoute s i)).length =
        r.waypoints.length - 1 ∧
      V3.selectCurrentRouteWaypoints (V3.editWaypointInCurrentRoute s i w) = r.waypoints) := by
  have hdel : V3.selectCurrentRouteWaypoints (V3.deleteWaypointFromCurrentRoute s i) =
      jsSpliceDelete1 r.waypoints i :=
    selectWaypoints_onCurrent s
      (fun r2 => { r2 with waypoints := jsSpliceDelete1 r2.waypoints i }) r
      (fun _ => rfl) hr
  have hedit : V3.selectCurrentRouteWaypoints (V3.editWaypointInCurrentRoute s i w) =
      jsArraySet r.waypoints i w :=
    selectWaypoints_onCurrent s
      (fun r2 => { r2 with waypoints := jsArraySet r2.waypoints i w }) r
      (fun _ => rfl) hr
  constructor
  · intro hge
    constructor
    · rw [hdel, jsSpliceDelete1_ge r.waypoints i hge]
    · rw [hedit, jsArraySet_ge r.waypoints i w hge]
  · intro hneg
    constructor
    · rw [hdel, jsSpliceDelete1_neg_length r.waypoints i hneg]
    · rw [hedit, jsArraySet_neg r.waypoints i w hneg]

/-- C2 witness: the amended theorem applied at the concrete state `stC2`
(length 2) and index 5. -/
theorem C2_out_of_bounds_witness :
    V3.selectCurrentRouteWaypoints (V3.deleteWaypointFromCurrentRoute stC2 5) =
      routeC2.waypoints ∧
    V3.selectCurrentRouteWaypoints (V3.editWaypointInCurrentRoute stC2 5 (wpA "c")) =
      routeC2.waypoints ++ List.replicate ((5 : Int).toNat - routeC2.waypoints.length) none ++
        [some (wpA "c")] :=
  (C2_out_of_bounds_edit_delete stC2 routeC2 (by decide) 5 (wpA "c")).1 (by decide)

/-- C3 counterexample: the claim closes reachability under
`loadAvailableRoutes`, but dispatching `setCurrentRoute` and then
`loadAvailableRoutes []` from the initial state yields a state whose
`currentRouteId` is `some 1` while `availableRoutes` has no matching
entry: the load reducer replaces the list without clearing the
reference. -/
theorem C3_counterexample :
    (V3.run V3.initialState
        [V3.Action.setCurrentRoute routeC3, V3.Action.loadAvailableRoutes []]).currentRouteId =
      some 1 ∧
    V3.currentRouteValid
      (V3.run V3.initialState
        [V3.Action.setCurrentRoute routeC3, V3.Action.loadAvailableRoutes []]) = false := by
  decide

/-- C3 (amended): in every state reachable from the initial state by
store operations other than `loadAvailableRoutes` (whose wholesale
replacement can orphan the reference), a non-null `currentRouteId`
matches some entry of `availableRoutes`; and `removeRoute id` clears
`currentRouteId` in the same transition exactly when the removed id was
current, leaving it untouched otherwise. -/
theorem C3_route_reference_invariant :
    (∀ as : List V3.Action, (∀ a ∈ as, a.isLoad = false) →
      V3.currentRouteValid (V3.run V3.initialState as) = true) ∧
    (∀ (s : V3.DataState) (rid : Int),
      (s.currentRouteId = some rid → (V3.removeRoute s rid).currentRouteId = none) ∧
      (s.currentRouteId ≠ some rid →
        (V3.removeRoute s rid).currentRouteId = s.currentRouteId)) := by
  constructor
  · intro as hload
    exact currentRouteValid_run as V3.initialState hload rfl
  · intro s rid
    constructor
    · intro hc
      unfold V3.removeRoute
      simp [hc]
    · intro hc
      unfold V3.removeRoute
      simp only
      have hbeq : (s.currentRouteId == some rid) = false := by
        rw [beq_eq_false_iff_ne]
        exact hc
      rw [hbeq]
      simp

/-- C3 witness: the amended theorem applied to the concrete sequence
select-then-remove, and to a concrete removal of the current id. -/
theorem C3_route_reference_witness :
    V3.currentRouteValid (V3.run V3.initialState
      [V3.Action.setCurrentRoute routeC3, V3.Action.removeRoute 1]) = true ∧
    (V3.removeRoute ⟨[routeC3], some 1⟩ 1).currentRouteId = none :=
  ⟨C3_route_reference_invariant.1 _ (by decide),
   (C3_route_reference_invariant.2 ⟨[routeC3], some 1⟩ 1).1 rfl⟩

/-- C4: in every successful save run, the remote calls occur in order:
an optional rename first (present exactly when the local name differs
from the snapshot name), then one create-or-update call per local
waypoint in local order with the index as intended order, then the
delete calls, then exactly one reorder call — the last mutating call —
whose payload is the full ordered identity list of the just-persisted
waypoints (position `j` carries the identity under which the `j`-th
local waypoint was persisted: the create response's identity for a new
waypoint, the update response's identity for an existing one), then the
re-fetch; the fetched route replaces the local route via the single
`setCurrentRoute` dispatch. -/
theorem C4_save_call_order (srv : Server) (st : V2.DataState) (u : Route)
    (hok : (saveCurrentRouteToBackend srv st).result = .ok u) :
    ∃ cr er wl syncSeg delSeg,
      st.currentRoute = some cr ∧
      st.availableRoutes.find? (fun r => r.id == cr.id) = some er ∧
      cr.waypoints = List.map some wl ∧
      (saveCurrentRouteToBackend srv st).calls =
        (if cr.name != er.name then [ApiCall.updateRouteName cr.id cr.name] else [])
        ++ syncSeg ++ delSeg ++
        [ApiCall.reorderWaypoints cr.id ((syncResps srv cr.id 0 wl).map Waypoint.id),
         ApiCall.getRouteById cr.id] ∧
      syncSeg.length = cr.waypoints.length ∧
      (∀ j w, cr.waypoints[j]? = some (some w) →
        syncSeg[j]? = some (ApiCall.addWaypointToRoute cr.id w.data j) ∨
        syncSeg[j]? = some (ApiCall.updateWaypoint w.id w.data j cr.id)) ∧
      (∀ c ∈ delSeg, c.isDelete = true) ∧
      ((syncResps srv cr.id 0 wl).map Waypoint.id).length = cr.waypoints.length ∧
      (∀ j w, cr.waypoints[j]? = some (some w) →
        ((syncResps srv cr.id 0 wl).map Waypoint.id)[j]? =
          some ((mkSyncResp srv cr.id w j).id)) ∧
      (saveCurrentRouteToBackend srv st).calls.countP ApiCall.isReorder = 1 ∧
      u = srv.fetchResp cr.id ∧
      (saveCurrentRouteToBackend srv st).dispatched = [u] := by
  rcases save_ok_spec srv st u hok with ⟨cr, er, wl, hc, hf, hwl, hu, hdisp, hcalls⟩
  refine ⟨cr, er, wl, syncCalls cr.id 0 wl,
    ((er.waypoints.filterMap (fun sl => sl)).filter
        (fun w => isPersistedId w.id && !((wl.map Waypoint.id).contains w.id))).map
      (fun w => ApiCall.deleteWaypoint w.id),
    hc, hf, hwl, hcalls, ?_, ?_, ?_, ?_, ?_, ?_, hu, hdisp⟩
  · rw [hwl]
    simp [syncCalls_length]
  · intro j w hj
    rw [hwl, List.getElem?_map] at hj
    have hwj : wl[j]? = some w := by
      rcases hwlj : wl[j]? with _ | w2
      · rw [hwlj] at hj; cases hj
      · rw [hwlj] at hj
        simp only [Option.map_some', Option.some.injEq] at hj
        simp [hwlj, hj]
    have hsc := syncCalls_getElem? cr.id wl 0 j
    rw [hwj] at hsc
    simp only [Option.map_some', Nat.zero_add] at hsc
    by_cases hn : isNewId w.id = true
    · left
      rw [hsc]
      unfold mkSyncCall
      rw [if_pos hn]
    · right
      rw [Bool.not_eq_true] at hn
      rw [hsc]
      unfold mkSyncCall
      rw [hn]
      simp
  · intro c hcc
    rcases List.mem_map.mp hcc with ⟨w, _, hcw⟩
    rw [← hcw]
    rfl
  · rw [hwl]
    simp [syncResps_length]
  · intro j w hj
    rw [hwl, List.getElem?_map] at hj
    have hwj : wl[j]? = some w := by
      rcases hwlj : wl[j]? with _ | w2
      · rw [hwlj] at hj; cases hj
      · rw [hwlj] at hj
        simp only [Option.map_some', Option.some.injEq] at hj
        simp [hwlj, hj]
    have hsr := syncResps_getElem? srv cr.id wl 0 j
    rw [hwj] at hsr
    simp only [Option.map_some', Nat.zero_add] at hsr
    rw [List.getElem?_map, hsr]
    rfl
  · rw [hcalls]
    rw [List.countP_append, List.countP_append, List.countP_append]
    have h1 : (if cr.name != er.name then [ApiCall.updateRouteName cr.id cr.name]
        else []).countP ApiCall.isReorder = 0 := by
      split <;> rfl
    have h2 : (syncCalls cr.id 0 wl).countP ApiCall.isReorder = 0 :=
      List.countP_eq_zero.mpr (fun c hcc => by
        rcases syncCalls_mem cr.id wl 0 c hcc with ⟨w, o, _, hcw⟩
        rw [hcw, mkSyncCall_isReorder]
        exact Bool.false_ne_true)
    have h3 : (((er.waypoints.filterMap (fun sl => sl)).filter
        (fun w => isPersistedId w.id && !((wl.map Waypoint.id).contains w.id))).map
          (fun w => ApiCall.deleteWaypoint w.id)).countP ApiCall.isReorder = 0 :=
      List.countP_eq_zero.mpr (fun c hcc => by
        rcases List.mem_map.mp hcc with ⟨w, _, hcw⟩
        rw [← hcw]
        exact Bool.false_ne_true)
    rw [h1, h2, h3]
    rfl

/-- C4 witness: a successful concrete run (rename + update + create +
reorder + fetch) has exactly one reorder call and dispatches the fetched
route. -/
theorem C4_save_call_order_witness :
    (saveCurrentRouteToBackend srvC4 stC4).calls.countP ApiCall.isReorder = 1 ∧
    (saveCurrentRouteToBackend srvC4 stC4).dispatched = [srvC4.fetchResp 1] := by
  obtain ⟨cr, er, wl, ss, ds, hc, hf, hwl, hcalls, hlen, hjth, hdels, hidlen, hids,
    hcount, hu, hdisp⟩ :=
    C4_save_call_order srvC4 stC4 (srvC4.fetchResp 1) rfl
  have hcr : cr = routeC4 := by
    have h0 : stC4.currentRoute = some routeC4 := rfl
    rw [h0] at hc
    injection hc with h2
    exact h2.symm
  refine ⟨hcount, ?_⟩
  rw [hdisp, hu, hcr]

/-- C5: in every successful save run, the per-waypoint call for the
waypoint at local index `j` is a create call exactly when its identity is
the string "-1" or parses (JS `parseInt`) to a negative number; any
other identity — including non-numeric ones such as UUIDs — receives an
update call. -/
theorem C5_create_classification (srv : Server) (st : V2.DataState) (u : Route)
    (hok : (saveCurrentRouteToBackend srv st).result = .ok u) :
    ∃ cr pre syncSeg post,
      st.currentRoute = some cr ∧
      (saveCurrentRouteToBackend srv st).calls = pre ++ syncSeg ++ post ∧
      syncSeg.length = cr.waypoints.length ∧
      (∀ j w, cr.waypoints[j]? = some (some w) →
        ((syncSeg[j]? = some (ApiCall.addWaypointToRoute cr.id w.data j)) ↔
          (w.id = "-1" ∨ ∃ n, jsParseInt w.id = some n ∧ n < 0)) ∧
        ((w.id ≠ "-1" ∧ ¬ ∃ n, jsParseInt w.id = some n ∧ n < 0) →
          syncSeg[j]? = some (ApiCall.updateWaypoint w.id w.data j cr.id))) := by
  rcases save_ok_spec srv st u hok with ⟨cr, er, wl, hc, hf, hwl, hu, hdisp, hcalls⟩
  refine ⟨cr, (if cr.name != er.name then [ApiCall.updateRouteName cr.id cr.name] else []),
    syncCalls cr.id 0 wl,
    ((er.waypoints.filterMap (fun sl => sl)).filter (fun w => isPersistedId w.id &&
      !((wl.map Waypoint.id).contains w.id))).map (fun w => ApiCall.deleteWaypoint w.id)
      ++ [ApiCall.reorderWaypoints cr.id ((syncResps srv cr.id 0 wl).map Waypoint.id),
          ApiCall.getRouteById cr.id],
    hc, ?_, ?_, ?_⟩
  · rw [hcalls]
    simp [List.append_assoc]
  · rw [hwl]
    simp [syncCalls_length]
  · intro j w hj
    rw [hwl, List.getElem?_map] at hj
    have hwj : wl[j]? = some w := by
      rcases hwlj : wl[j]? with _ | w2
      · rw [hwlj] at hj; cases hj
      · rw [hwlj] at hj
        simp only [Option.map_some', Option.some.injEq] at hj
        simp [hwlj, hj]
    have hsc := syncCalls_getElem? cr.id wl 0 j
    rw [hwj] at hsc
    simp only [Option.map_some', Nat.zero_add] at hsc
    constructor
    · constructor
      · intro hcreate
        rw [hsc] at hcreate
        injection hcreate with hcr2
        by_cases hn : isNewId w.id = true
        · exact (isNewId_iff w.id).mp hn
        · rw [Bool.not_eq_true] at hn
          unfold mkSyncCall at hcr2
          rw [hn] at hcr2
          simp at hcr2
      · intro hnew
        rw [hsc]
        unfold mkSyncCall
        rw [if_pos ((isNewId_iff w.id).mpr hnew)]
    · intro hexisting
      have hn : isNewId w.id = false := by
        rcases hb : isNewId w.id with _ | _
        · rfl
        · rcases (isNewId_iff w.id).mp hb with h1 | h2
          · exact absurd h1 hexisting.1
          · exact absurd h2 hexisting.2
      rw [hsc]
      unfold mkSyncCall
      rw [hn]
      simp

/-- C5 witness: the classification theorem applied to a concrete
successful run holding one persisted ("7") and one sentinel ("-1")
waypoint. -/
theorem C5_create_classification_witness :
    ∃ cr pre syncSeg post,
      stC4.currentRoute = some cr ∧
      (saveCurrentRouteToBackend srvC4 stC4).calls = pre ++ syncSeg ++ post ∧
      syncSeg.length = cr.waypoints.length ∧
      (∀ j w, cr.waypoints[j]? = some (some w) →
        ((syncSeg[j]? = some (ApiCall.addWaypointToRoute cr.id w.data j)) ↔
          (w.id = "-1" ∨ ∃ n, jsParseInt w.id = some n ∧ n < 0)) ∧
        ((w.id ≠ "-1" ∧ ¬ ∃ n, jsParseInt w.id = some n ∧ n < 0) →
          syncSeg[j]? = some (ApiCall.updateWaypoint w.id w.data j cr.id))) :=
  C5_create_classification srvC4 stC4 (srvC4.fetchResp 1) rfl

/-- C6: the save rejects with the no-current-route error when nothing is
selected and with the route-not-found error when the current route id has
no entry in `availableRoutes`, issuing no remote calls in either case;
and every failing save (including a mid-sequence network failure)
performs no dispatch, leaving the working-set state exactly as it was. -/
theorem C6_save_failure_semantics (srv : Server) (st : V2.DataState) :
    (st.currentRoute = none →
      saveCurrentRouteToBackend srv st = ⟨[], [], .error .noCurrentRoute⟩) ∧
    (∀ cr, st.currentRoute = some cr →
      st.availableRoutes.find? (fun r => r.id == cr.id) = none →
      saveCurrentRouteToBackend srv st = ⟨[], [], .error .routeNotFound⟩) ∧
    (∀ e, (saveCurrentRouteToBackend srv st).result = .error e →
      (saveCurrentRouteToBackend srv st).dispatched = [] ∧
      applySave st (saveCurrentRouteToBackend srv st) = st) := by
  refine ⟨?_, ?_, ?_⟩
  · intro hc
    obtain ⟨o, ho⟩ : ∃ o, saveCurrentRouteToBackend srv st = o := ⟨_, rfl⟩
    rw [ho]
    unfold saveCurrentRouteToBackend at ho
    simp only [hc] at ho
    exact ho.symm
  · intro cr hc hf
    obtain ⟨o, ho⟩ : ∃ o, saveCurrentRouteToBackend srv st = o := ⟨_, rfl⟩
    rw [ho]
    unfold saveCurrentRouteToBackend at ho
    simp only [hc] at ho
    simp only [hf] at ho
    exact ho.symm
  · intro e herr
    rcases save_dispatched_spec srv st with hd | ⟨u, hres, _⟩
    · refine ⟨hd, ?_⟩
      unfold applySave
      rw [hd]
      rfl
    · rw [herr] at hres
      cases hres

/-- C6 witness: the failure theorem applied at a state with nothing
selected, a state whose current route is missing from `availableRoutes`,
and a run on which the first remote call fails. -/
theorem C6_save_failure_witness :
    saveCurrentRouteToBackend srvC9 ⟨[], none⟩ = ⟨[], [], .error .noCurrentRoute⟩ ∧
    saveCurrentRouteToBackend srvC9 ⟨[], some routeC9⟩ = ⟨[], [], .error .routeNotFound⟩ ∧
    applySave stC9 (saveCurrentRouteToBackend srvFail stC9) = stC9 := by
  refine ⟨(C6_save_failure_semantics srvC9 ⟨[], none⟩).1 rfl,
    (C6_save_failure_semantics srvC9 ⟨[], some routeC9⟩).2.1 routeC9 rfl rfl, ?_⟩
  exact ((C6_save_failure_semantics srvFail stC9).2.2
    (.callFailed (ApiCall.updateWaypoint "7" (Waypoint.data (wpA "7")) 0 1)) rfl).2

/-- C7: the drone-post handler returns immediately, issues zero outbound
calls and signals nothing when the waypoint queue is empty; a non-empty
queue results in exactly one outbound call carrying the queue. -/
theorem C7_empty_queue_guard (postErr : Option String) (q : List Waypoint) :
    (q = [] → handlePost postErr q = ([], none)) ∧
    (q ≠ [] → (handlePost postErr q).1 = [⟨q⟩]) := by
  constructor
  · intro hq
    subst hq
    rfl
  · intro hq
    rcases q with _ | ⟨w, ws⟩
    · exact absurd rfl hq
    · rfl

/-- C7 witness: the guard theorem applied at the empty queue and at a
one-waypoint queue (with a failing post). -/
theorem C7_empty_queue_witness :
    handlePost none [] = ([], none) ∧
    (handlePost (some "network down") [wpA "7"]).1 = [⟨[wpA "7"]⟩] :=
  ⟨(C7_empty_queue_guard none []).1 rfl,
   (C7_empty_queue_guard (some "network down") [wpA "7"]).2 (by simp)⟩

/-- C8: immediately after `setCurrentRoute r`, the current-route selector
returns exactly `r` and the waypoint selector returns exactly `r`'s
waypoint list; `r` is appended to `availableRoutes` when its id is
unseen and replaces the first matching entry otherwise; and with no
route selected, the waypoint selector yields the empty list, never
null. -/
theorem C8_select_route (s : V3.DataState) (r : Route) :
    V3.selectCurrentRoute (V3.setCurrentRoute s r) = some r ∧
    V3.selectCurrentRouteWaypoints (V3.setCurrentRoute s r) = r.waypoints ∧
    ((∀ x ∈ s.availableRoutes, (x.id == r.id) = false) →
      (V3.setCurrentRoute s r).availableRoutes = s.availableRoutes ++ [r]) ∧
    (∀ j, jsFindIndex (fun x : Route => x.id == r.id) s.availableRoutes = some j →
      (V3.setCurrentRoute s r).availableRoutes = s.availableRoutes.set j r) ∧
    (∀ t : V3.DataState, t.currentRouteId = none →
      V3.selectCurrentRouteWaypoints t = []) := by
  refine ⟨selectCurrentRoute_setCurrentRoute s r, ?_, ?_, ?_, ?_⟩
  · unfold V3.selectCurrentRouteWaypoints
    rw [selectCurrentRoute_setCurrentRoute s r]
    rfl
  · intro hnone
    unfold V3.setCurrentRoute
    simp only
    rw [jsFindIndex_none_of _ _ hnone]
  · intro j hj
    unfold V3.setCurrentRoute
    simp only
    rw [hj]
  · intro t ht
    unfold V3.selectCurrentRouteWaypoints
    rw [selectCurrentRoute_none_of_id_none t ht]
    rfl

/-- C8 witness: the selection theorem applied at the empty initial state
(unseen id, so the route is appended) and to the no-selection reading. -/
theorem C8_select_route_witness :
    V3.selectCurrentRoute (V3.setCurrentRoute V3.initialState routeC2) = some routeC2 ∧
    (V3.setCurrentRoute V3.initialState routeC2).availableRoutes = [] ++ [routeC2] ∧
    V3.selectCurrentRouteWaypoints V3.initialState = [] := by
  obtain ⟨h1, h2, h3, h4, h5⟩ := C8_select_route V3.initialState routeC2
  exact ⟨h1, h3 (by intro x hx; cases hx), h5 V3.initialState rfl⟩

/-- C10: in every save run, a delete-waypoint call only ever targets an
identity that is absent from the local waypoint identity set at save
start, is not the sentinel "-1", and parses (JS `parseInt`) to a
non-negative number. -/
theorem C10_delete_targets_safe (srv : Server) (st : V2.DataState) (wid : String)
    (h : ApiCall.deleteWaypoint wid ∈ (saveCurrentRouteToBackend srv st).calls) :
    (localIds st).contains wid = false ∧ wid ≠ "-1" ∧
    ∃ n, jsParseInt wid = some n ∧ 0 ≤ n := by
  rcases save_delete_mem srv st wid h with ⟨cr, er, w, hc, hf, hwid, hmem, hpers, hcont⟩
  subst hwid
  rcases (isPersistedId_iff w.id).mp hpers with ⟨hne, n, hp, hn⟩
  exact ⟨hcont, hne, n, hp, hn⟩

/-- C10 witness: a run whose snapshot still holds waypoint 7 while the
local list does not issues a delete for "7", and the theorem's
guarantees hold of it. -/
theorem C10_delete_targets_witness :
    ApiCall.deleteWaypoint "7" ∈ (saveCurrentRouteToBackend srvC9 stC10).calls ∧
    ((localIds stC10).contains "7" = false ∧ "7" ≠ "-1" ∧
      ∃ n, jsParseInt "7" = some n ∧ 0 ≤ n) := by
  have hmem : ApiCall.deleteWaypoint "7" ∈ (saveCurrentRouteToBackend srvC9 stC10).calls := by
    decide
  exact ⟨hmem, C10_delete_targets_safe srvC9 stC10 "7" hmem⟩

/-- C9: after a successful save whose re-fetch replaced the local route
(the server echoing updated identities, assigning persisted identities,
and reporting exactly the synced identity list), a second save from the
resulting state issues no create-waypoint and no delete-waypoint calls:
every local waypoint now carries a non-sentinel, non-negative identity
and no snapshot identity is absent from the local identity set. -/
theorem C9_second_save_no_create_delete (srv : Server) (st : V2.DataState)
    (cr er u : Route)
    (hc : st.currentRoute = some cr)
    (hf : st.availableRoutes.find? (fun r => r.id == cr.id) = some er)
    (hsync0 : er.waypoints = cr.waypoints)
    (h1 : (saveCurrentRouteToBackend srv st).result = .ok u)
    (hupd : ∀ id d o rt, (srv.updateResp id d o rt).id = id)
    (hfetch_id : (srv.fetchResp cr.id).id = cr.id)
    (hfetch_good : ∀ sl ∈ (srv.fetchResp cr.id).waypoints,
      ∃ w, sl = some w ∧ isPersistedId w.id = true)
    (hfetch_ids : ∀ ids, ApiCall.reorderWaypoints cr.id ids ∈
        (saveCurrentRouteToBackend srv st).calls →
      (srv.fetchResp cr.id).waypoints.filterMap (fun sl => sl.map Waypoint.id) = ids) :
    (saveCurrentRouteToBackend srv
        (applySave st (saveCurrentRouteToBackend srv st))).calls.countP
      ApiCall.isCreate = 0 ∧
    (saveCurrentRouteToBackend srv
        (applySave st (saveCurrentRouteToBackend srv st))).calls.countP
      ApiCall.isDelete = 0 ∧
    (∀ wid ∈ localIds (applySave st (saveCurrentRouteToBackend srv st)),
      isPersistedId wid = true) := by
  rcases save_ok_spec srv st u h1 with ⟨cr2, er2, wl, hc2, hf2, hwl, hu, hdisp, hcalls⟩
  have hcr2 : cr2 = cr := by
    rw [hc] at hc2
    injection hc2 with h2
    exact h2.symm
  subst hcr2
  have her2 : er2 = er := by
    rw [hf] at hf2
    injection hf2 with h2
    exact h2.symm
  subst her2
  have hst2 : applySave st (saveCurrentRouteToBackend srv st) =
      ⟨st.availableRoutes, some u⟩ := by
    unfold applySave
    rw [hdisp]
    rfl
  rw [hst2]
  have huid : u.id = cr2.id := by
    rw [hu]
    exact hfetch_id
  have hugood : ∀ sl ∈ u.waypoints, ∃ w, sl = some w ∧ isPersistedId w.id = true := by
    rw [hu]
    exact hfetch_good
  have hfind2 : st.availableRoutes.find? (fun r => r.id == u.id) = some er2 := by
    simp only [huid]
    exact hf
  have hreo : ApiCall.reorderWaypoints cr2.id ((syncResps srv cr2.id 0 wl).map Waypoint.id) ∈
      (saveCurrentRouteToBackend srv st).calls := by
    rw [hcalls]
    simp
  have hids := hfetch_ids _ hreo
  have hloc : localIds ⟨st.availableRoutes, some u⟩ =
      (syncResps srv cr2.id 0 wl).map Waypoint.id := by
    show u.waypoints.filterMap (fun sl => sl.map Waypoint.id) = _
    rw [hu]
    exact hids
  have hlocal_good : ∀ wid ∈ localIds (⟨st.availableRoutes, some u⟩ : V2.DataState),
      isPersistedId wid = true := by
    intro wid hwid
    have heq : localIds ⟨st.availableRoutes, some u⟩ =
        u.waypoints.filterMap (fun sl => sl.map Waypoint.id) := rfl
    rw [heq] at hwid
    rcases List.mem_filterMap.mp hwid with ⟨sl, hsl, hmap⟩
    rcases hugood sl hsl with ⟨w, hsw, hwp⟩
    rw [hsw] at hmap
    simp only [Option.map_some', Option.some.injEq] at hmap
    rw [← hmap]
    exact hwp
  have hsnap : ∀ w : Waypoint, some w ∈ er2.waypoints → isPersistedId w.id = true →
      (localIds (⟨st.availableRoutes, some u⟩ : V2.DataState)).contains w.id = true := by
    intro w hw hp
    rw [hloc]
    have hw2 : some w ∈ cr2.waypoints := by
      rw [← hsync0]
      exact hw
    rw [hwl] at hw2
    rcases List.mem_map.mp hw2 with ⟨w2, hw2mem, hw2eq⟩
    have hww : w2 = w := by injection hw2eq
    subst hww
    have hmem2 := mem_syncResps_id srv cr2.id hupd wl 0 w2 hw2mem
      (isPersistedId_not_new w2.id hp)
    exact List.elem_iff.mpr hmem2
  refine ⟨?_, ?_, hlocal_good⟩
  · refine List.countP_eq_zero.mpr ?_
    intro c hcc hcreate
    cases c with
    | addWaypointToRoute rid d o =>
        rcases save_create_mem srv ⟨st.availableRoutes, some u⟩ rid d o hcc with
          ⟨cr3, w, hc3, hw3, hnew3⟩
        have hc3a : some u = some cr3 := hc3
        injection hc3a with hc3b
        rw [← hc3b] at hw3
        rcases hugood _ hw3 with ⟨w4, hw4, hp4⟩
        injection hw4 with hw4b
        rw [hw4b] at hnew3
        rw [isPersistedId_not_new w4.id hp4] at hnew3
        cases hnew3
    | updateRouteName a b => cases hcreate
    | updateWaypoint a b c d => cases hcreate
    | deleteWaypoint a => cases hcreate
    | reorderWaypoints a b => cases hcreate
    | getRouteById a => cases hcreate
  · refine List.countP_eq_zero.mpr ?_
    intro c hcc hdelete
    cases c with
    | deleteWaypoint wid =>
        rcases save_delete_mem srv ⟨st.availableRoutes, some u⟩ wid hcc with
          ⟨cr3, er3, w, hc3, hf3, hwid, hmem3, hpers3, hcont3⟩
        have hc3a : some u = some cr3 := hc3
        injection hc3a with hc3b
        have hf3a : st.availableRoutes.find? (fun r => r.id == cr3.id) = some er3 := hf3
        rw [← hc3b] at hf3a
        rw [hfind2] at hf3a
        injection hf3a with hf3b
        rw [← hf3b] at hmem3
        have hcontra := hsnap w hmem3 hpers3
        rw [hcont3] at hcontra
        cases hcontra
    | updateRouteName a b => cases hdelete
    | updateWaypoint a b c d => cases hdelete
    | addWaypointToRoute a b c => cases hdelete
    | reorderWaypoints a b => cases hdelete
    | getRouteById a => cases hdelete

/-- C9 witness: the idempotence theorem applied to a concrete in-sync
state and echo server; the second save issues no creates and no
deletes. -/
theorem C9_second_save_witness :
    (saveCurrentRouteToBackend srvC9
        (applySave stC9 (saveCurrentRouteToBackend srvC9 stC9))).calls.countP
      ApiCall.isCreate = 0 ∧
    (saveCurrentRouteToBackend srvC9
        (applySave stC9 (saveCurrentRouteToBackend srvC9 stC9))).calls.countP
      ApiCall.isDelete = 0 := by
  refine (fun h => ⟨h.1, h.2.1⟩)
    (C9_second_save_no_create_delete srvC9 stC9 routeC9 routeC9
      (srvC9.fetchResp routeC9.id) rfl rfl rfl rfl (fun _ _ _ _ => rfl) rfl ?_ ?_)
  · intro sl hsl
    have hw : (srvC9.fetchResp routeC9.id).waypoints = [some (wpA "7")] := rfl
    rw [hw] at hsl
    have hsl2 : sl = some (wpA "7") := by simpa using hsl
    rw [hsl2]
    exact ⟨wpA "7", rfl, by decide⟩
  · intro ids hmem
    have hcalls : (saveCurrentRouteToBackend srvC9 stC9).calls =
        [ApiCall.updateWaypoint "7" (Waypoint.data (wpA "7")) 0 1,
         ApiCall.reorderWaypoints 1 ["7"], ApiCall.getRouteById 1] := rfl
    rw [hcalls] at hmem
    simp only [List.mem_cons, List.not_mem_nil, or_false] at hmem
    rcases hmem with h1 | h2 | h3
    · cases h1
    · injection h2 with ha hb
      subst hb
      rfl
    · cases h3

end Gcom